import Mathlib

/-!
# Account store and authentication workflow

A shallow embedding of `internal/storage/storage.go` and `internal/service/auth.go`.

* Go maps `map[string]V` are total lookup functions `String → Option V`;
  `m[k] = v` is `Function.update m k (some v)` and `delete(m, k)` is
  `Function.update m k none`.
* The store is passed explicitly: every operation takes the store and returns
  the store it leaves behind together with its Go return values.
* `*User` pointers are modelled by the record value: no code path writes to a
  `User` after it was built.
* The two library calls whose result the code cannot determine,
  `bcrypt.GenerateFromPassword` (random salt, may fail) and
  `uuid.New().String()`, take what the library draws as an explicit argument.
-/

namespace storage

/-- Go `error` values that occur in the two packages: the three sentinels of
`storage.go`, errors raised by a library, and `fmt.Errorf("...: %w", err)`. -/
inductive Error where
  | ErrUserNotFound
  | ErrUserAlreadyExists
  | ErrInvalidToken
  | External (msg : String)
  | Wrapped (msg : String) (cause : Error)
  deriving DecidableEq, Repr

/-- The record `storage.User`. -/
structure User where
  ID : String
  Username : String
  Email : String
  PasswordHash : String
  deriving DecidableEq, Repr

/-- The interface `storage.Storage`, over an implementation with state `σ`.
A call returns its Go results and the state it leaves. -/
structure Storage (σ : Type) where
  CreateUser : σ → User → Option Error × σ
  GetUserByUsername : σ → String → Except Error User × σ
  GetUserByID : σ → String → Except Error User × σ
  StoreToken : σ → String → String → Option Error × σ
  ValidateToken : σ → String → Except Error String × σ
  RevokeToken : σ → String → Option Error × σ

/-- The struct `InMemoryStorage` (the lock is not modelled). -/
structure InMemoryStorage where
  users : String → Option User
  userIDs : String → Option User
  tokens : String → Option String

/-- `NewInMemoryStorage`: three empty maps. -/
def NewInMemoryStorage : InMemoryStorage :=
  { users := fun _ => none, userIDs := fun _ => none, tokens := fun _ => none }

/-- `(*InMemoryStorage).CreateUser`. -/
def InMemoryStorage.CreateUser (s : InMemoryStorage) (user : User) :
    Option Error × InMemoryStorage :=
  if (s.users user.Username).isSome then
    (some Error.ErrUserAlreadyExists, s)
  else
    (none,
      { s with
        users := Function.update s.users user.Username (some user)
        userIDs := Function.update s.userIDs user.ID (some user) })

/-- `(*InMemoryStorage).GetUserByUsername`. -/
def InMemoryStorage.GetUserByUsername (s : InMemoryStorage) (username : String) :
    Except Error User :=
  match s.users username with
  | none => Except.error Error.ErrUserNotFound
  | some user => Except.ok user

/-- `(*InMemoryStorage).GetUserByID`. -/
def InMemoryStorage.GetUserByID (s : InMemoryStorage) (id : String) :
    Except Error User :=
  match s.userIDs id with
  | none => Except.error Error.ErrUserNotFound
  | some user => Except.ok user

/-- `(*InMemoryStorage).StoreToken`. -/
def InMemoryStorage.StoreToken (s : InMemoryStorage) (userID token : String) :
    Option Error × InMemoryStorage :=
  (none, { s with tokens := Function.update s.tokens token (some userID) })

/-- `(*InMemoryStorage).ValidateToken`. -/
def InMemoryStorage.ValidateToken (s : InMemoryStorage) (token : String) :
    Except Error String :=
  match s.tokens token with
  | none => Except.error Error.ErrInvalidToken
  | some userID => Except.ok userID

/-- `(*InMemoryStorage).RevokeToken`. -/
def InMemoryStorage.RevokeToken (s : InMemoryStorage) (token : String) :
    Option Error × InMemoryStorage :=
  (none, { s with tokens := Function.update s.tokens token none })

/-- `InMemoryStorage` as an implementation of the interface; the three
lookups leave the store as it is. -/
def InMemoryStorage.asStorage : Storage InMemoryStorage where
  CreateUser := InMemoryStorage.CreateUser
  GetUserByUsername := fun s username => (s.GetUserByUsername username, s)
  GetUserByID := fun s id => (s.GetUserByID id, s)
  StoreToken := InMemoryStorage.StoreToken
  ValidateToken := fun s token => (s.ValidateToken token, s)
  RevokeToken := InMemoryStorage.RevokeToken

/-- A call of the storage interface, as data. -/
inductive Op where
  | CreateUser (user : User)
  | GetUserByUsername (username : String)
  | GetUserByID (id : String)
  | StoreToken (userID token : String)
  | ValidateToken (token : String)
  | RevokeToken (token : String)

/-- The store an in-memory storage call leaves. -/
def InMemoryStorage.apply (s : InMemoryStorage) : Op → InMemoryStorage
  | Op.CreateUser user => (s.CreateUser user).2
  | Op.GetUserByUsername _ => s
  | Op.GetUserByID _ => s
  | Op.StoreToken userID token => (s.StoreToken userID token).2
  | Op.ValidateToken _ => s
  | Op.RevokeToken token => (s.RevokeToken token).2

/-- The records whose `CreateUser` succeeded while `ops` ran from `s`, in
order of the calls. -/
def InMemoryStorage.created (s : InMemoryStorage) : List Op → List User
  | [] => []
  | Op.CreateUser user :: ops =>
    (if (s.CreateUser user).1 = none then [user] else []) ++
      InMemoryStorage.created (s.CreateUser user).2 ops
  | op :: ops => InMemoryStorage.created (s.apply op) ops

/-- The store reached from `s` by a sequence of storage calls. -/
def InMemoryStorage.run (s : InMemoryStorage) : List Op → InMemoryStorage
  | [] => s
  | op :: ops => InMemoryStorage.run (s.apply op) ops

end storage

namespace service

open storage

/-- The package `golang.org/x/crypto/bcrypt` as the workflow uses it.
`GenerateFromPassword salt password cost` is the call with the salt the
library draws; `CompareHashAndPassword hash password` returns `none` for Go's
`nil`. -/
structure Bcrypt where
  GenerateFromPassword : String → String → Nat → Except Error String
  CompareHashAndPassword : String → String → Option Error

/-- The constant `bcrypt.DefaultCost`. -/
def DefaultCost : Nat := 10

/-- Verification accepts a (hash, password) pair exactly when the hash was
produced from that password. -/
def Bcrypt.Ideal (b : Bcrypt) : Prop :=
  ∀ salt p cost h, b.GenerateFromPassword salt p cost = Except.ok h →
    ∀ q, b.CompareHashAndPassword h q = none ↔ q = p

/-- The message `pb.RegisterRequest`. -/
structure RegisterRequest where
  Username : String := ""
  Email : String := ""
  Password : String := ""
  deriving DecidableEq, Repr

/-- The message `pb.RegisterResponse`; unset fields hold Go's zero value. -/
structure RegisterResponse where
  UserId : String := ""
  Success : Bool := false
  Message : String := ""
  deriving DecidableEq, Repr

/-- The message `pb.LoginRequest`. -/
structure LoginRequest where
  Username : String := ""
  Password : String := ""
  deriving DecidableEq, Repr

/-- The message `pb.LoginResponse`. -/
structure LoginResponse where
  Token : String := ""
  UserId : String := ""
  Success : Bool := false
  Message : String := ""
  deriving DecidableEq, Repr

/-- The message `pb.ValidateTokenRequest`. -/
structure ValidateTokenRequest where
  Token : String := ""
  deriving DecidableEq, Repr

/-- The message `pb.ValidateTokenResponse`. -/
structure ValidateTokenResponse where
  Valid : Bool := false
  UserId : String := ""
  Username : String := ""
  deriving DecidableEq, Repr

/-- The message `pb.LogoutRequest`. -/
structure LogoutRequest where
  Token : String := ""
  deriving DecidableEq, Repr

/-- The message `pb.LogoutResponse`. -/
structure LogoutResponse where
  Success : Bool := false
  Message : String := ""
  deriving DecidableEq, Repr

/-- What a workflow call returns: the response, the Go `error` (`none` is
`nil`) and the storage state it leaves. -/
structure Outcome (ρ σ : Type) where
  resp : ρ
  err : Option Error
  store : σ

/-- `(*AuthService).Register`; `salt` is what bcrypt draws and `uuid` what
`uuid.New().String()` yields if the call gets there. -/
def AuthService.Register {σ : Type} (st : Storage σ) (b : Bcrypt) (salt uuid : String)
    (s : σ) (req : RegisterRequest) : Outcome RegisterResponse σ :=
  if req.Username = "" ∨ req.Email = "" ∨ req.Password = "" then
    { resp := { Success := false, Message := "username, email, and password are required" }
      err := none
      store := s }
  else
    match b.GenerateFromPassword salt req.Password DefaultCost with
    | Except.error err =>
      { resp := { Success := false, Message := "failed to hash password" }
        err := some (Error.Wrapped "failed to hash password" err)
        store := s }
    | Except.ok hashedPassword =>
      let user : User :=
        { ID := uuid, Username := req.Username, Email := req.Email,
          PasswordHash := hashedPassword }
      match st.CreateUser s user with
      | (some err, s1) =>
        if err = Error.ErrUserAlreadyExists then
          { resp := { Success := false, Message := "user already exists" }
            err := none
            store := s1 }
        else
          { resp := { Success := false, Message := "failed to create user" }
            err := some (Error.Wrapped "failed to create user" err)
            store := s1 }
      | (none, s1) =>
        { resp := { UserId := user.ID, Success := true, Message := "user registered successfully" }
          err := none
          store := s1 }

/-- `(*AuthService).Login`; `uuid` is what `uuid.New().String()` yields if
the call gets there. -/
def AuthService.Login {σ : Type} (st : Storage σ) (b : Bcrypt) (uuid : String)
    (s : σ) (req : LoginRequest) : Outcome LoginResponse σ :=
  if req.Username = "" ∨ req.Password = "" then
    { resp := { Success := false, Message := "username and password are required" }
      err := none
      store := s }
  else
    match st.GetUserByUsername s req.Username with
    | (Except.error err, s1) =>
      if err = Error.ErrUserNotFound then
        { resp := { Success := false, Message := "invalid username or password" }
          err := none
          store := s1 }
      else
        { resp := { Success := false, Message := "failed to authenticate" }
          err := some (Error.Wrapped "failed to get user" err)
          store := s1 }
    | (Except.ok user, s1) =>
      match b.CompareHashAndPassword user.PasswordHash req.Password with
      | some _ =>
        { resp := { Success := false, Message := "invalid username or password" }
          err := none
          store := s1 }
      | none =>
        let token := uuid
        match st.StoreToken s1 user.ID token with
        | (some err, s2) =>
          { resp := { Success := false, Message := "failed to generate token" }
            err := some (Error.Wrapped "failed to store token" err)
            store := s2 }
        | (none, s2) =>
          { resp := { Token := token, UserId := user.ID, Success := true,
                      Message := "login successful" }
            err := none
            store := s2 }

/-- `(*AuthService).ValidateToken`. -/
def AuthService.ValidateToken {σ : Type} (st : Storage σ) (s : σ)
    (req : ValidateTokenRequest) : Outcome ValidateTokenResponse σ :=
  if req.Token = "" then
    { resp := { Valid := false }, err := none, store := s }
  else
    match st.ValidateToken s req.Token with
    | (Except.error _, s1) => { resp := { Valid := false }, err := none, store := s1 }
    | (Except.ok userID, s1) =>
      match st.GetUserByID s1 userID with
      | (Except.error _, s2) => { resp := { Valid := false }, err := none, store := s2 }
      | (Except.ok user, s2) =>
        { resp := { Valid := true, UserId := user.ID, Username := user.Username }
          err := none
          store := s2 }

/-- `(*AuthService).Logout`. -/
def AuthService.Logout {σ : Type} (st : Storage σ) (s : σ) (req : LogoutRequest) :
    Outcome LogoutResponse σ :=
  if req.Token = "" then
    { resp := { Success := false, Message := "token is required" }, err := none, store := s }
  else
    match st.RevokeToken s req.Token with
    | (some err, s1) =>
      { resp := { Success := false, Message := "failed to logout" }
        err := some (Error.Wrapped "failed to revoke token" err)
        store := s1 }
    | (none, s1) =>
      { resp := { Success := true, Message := "logout successful" }, err := none, store := s1 }

/-- The service `main.go` builds: the workflow over the in-memory store. -/
abbrev mem : Storage InMemoryStorage := InMemoryStorage.asStorage

/-- A call of the workflow, as data, with what the libraries draw during it. -/
inductive Call where
  | Register (salt uuid : String) (req : RegisterRequest)
  | Login (uuid : String) (req : LoginRequest)
  | ValidateToken (req : ValidateTokenRequest)
  | Logout (req : LogoutRequest)
  deriving DecidableEq, Repr

/-- The in-memory store a workflow call leaves. -/
def Call.exec (b : Bcrypt) (s : InMemoryStorage) : Call → InMemoryStorage
  | Call.Register salt uuid req => (AuthService.Register mem b salt uuid s req).store
  | Call.Login uuid req => (AuthService.Login mem b uuid s req).store
  | Call.ValidateToken req => (AuthService.ValidateToken mem s req).store
  | Call.Logout req => (AuthService.Logout mem s req).store

/-- The generated identifier a workflow call hands out: the `userId` of a
successful Register, the `token` of a successful Login. -/
def Call.issued (b : Bcrypt) (s : InMemoryStorage) : Call → List String
  | Call.Register salt uuid req =>
    if (AuthService.Register mem b salt uuid s req).resp.Success = true then
      [(AuthService.Register mem b salt uuid s req).resp.UserId]
    else []
  | Call.Login uuid req =>
    if (AuthService.Login mem b uuid s req).resp.Success = true then
      [(AuthService.Login mem b uuid s req).resp.Token]
    else []
  | Call.ValidateToken _ => []
  | Call.Logout _ => []

/-- The store reached from `s` by a sequence of workflow calls. -/
def runCalls (b : Bcrypt) (s : InMemoryStorage) : List Call → InMemoryStorage
  | [] => s
  | c :: cs => runCalls b (c.exec b s) cs

/-- The user ids and tokens handed out while the calls run from `s`, in order. -/
def issuedBy (b : Bcrypt) (s : InMemoryStorage) : List Call → List String
  | [] => []
  | c :: cs => c.issued b s ++ issuedBy b (c.exec b s) cs

/-- A stand-in for bcrypt to evaluate the workflow at concrete inputs. Like
bcrypt it refuses a password longer than 72 bytes; the hash it returns is the
password marked with `$2a$`, and verification recomputes and compares. -/
def testBcrypt : Bcrypt where
  GenerateFromPassword := fun _ password _ =>
    if 72 < password.utf8ByteSize then
      Except.error (Error.External "bcrypt: password length exceeds 72 bytes")
    else Except.ok (String.mk ('$' :: '2' :: 'a' :: '$' :: password.data))
  CompareHashAndPassword := fun hashedPassword password =>
    if hashedPassword = String.mk ('$' :: '2' :: 'a' :: '$' :: password.data) then none
    else some (Error.External "crypto/bcrypt: hashedPassword is not the hash of the given password")

/-- The store after `Register("alice", "a@x.com", "pw1")` on the empty store,
with `u1` as generated id. -/
def aliceStore : InMemoryStorage :=
  (AuthService.Register mem testBcrypt "salt" "u1" NewInMemoryStorage
    ⟨"alice", "a@x.com", "pw1"⟩).store

/-- A password of 73 bytes. -/
def longPassword : String := String.mk (List.replicate 73 'a')

/-- The store after the storage call `CreateUser` with a record whose username
is empty, on the empty store. -/
def anonStore : InMemoryStorage :=
  (NewInMemoryStorage.CreateUser ⟨"u0", "", "n@x.com", "$2a$pw0"⟩).2

/-- `(*AuthService).Login` once more, statement by statement, returning next
to the outcome the number of calls of `bcrypt.CompareHashAndPassword` made on
the way. -/
def AuthService.LoginCounted {σ : Type} (st : Storage σ) (b : Bcrypt) (uuid : String)
    (s : σ) (req : LoginRequest) : Outcome LoginResponse σ × Nat :=
  if req.Username = "" ∨ req.Password = "" then
    ({ resp := { Success := false, Message := "username and password are required" }
       err := none
       store := s }, 0)
  else
    match st.GetUserByUsername s req.Username with
    | (Except.error err, s1) =>
      if err = Error.ErrUserNotFound then
        ({ resp := { Success := false, Message := "invalid username or password" }
           err := none
           store := s1 }, 0)
      else
        ({ resp := { Success := false, Message := "failed to authenticate" }
           err := some (Error.Wrapped "failed to get user" err)
           store := s1 }, 0)
    | (Except.ok user, s1) =>
      match b.CompareHashAndPassword user.PasswordHash req.Password with
      | some _ =>
        ({ resp := { Success := false, Message := "invalid username or password" }
           err := none
           store := s1 }, 1)
      | none =>
        let token := uuid
        match st.StoreToken s1 user.ID token with
        | (some err, s2) =>
          ({ resp := { Success := false, Message := "failed to generate token" }
             err := some (Error.Wrapped "failed to store token" err)
             store := s2 }, 1)
        | (none, s2) =>
          ({ resp := { Token := token, UserId := user.ID, Success := true,
                       Message := "login successful" }
             err := none
             store := s2 }, 1)

/-- An implementation of the interface over the same three maps that answers
with the package's sentinels where the in-memory store lets the call pass:
`StoreToken` for an id without user fails with `ErrUserNotFound`, and
`RevokeToken` for a token that is not bound fails with `ErrInvalidToken`. -/
def checkedStorage : Storage InMemoryStorage where
  CreateUser := InMemoryStorage.CreateUser
  GetUserByUsername := fun s username => (s.GetUserByUsername username, s)
  GetUserByID := fun s id => (s.GetUserByID id, s)
  StoreToken := fun s userID token =>
    if (s.userIDs userID).isSome then s.StoreToken userID token
    else (some Error.ErrUserNotFound, s)
  ValidateToken := fun s token => (s.ValidateToken token, s)
  RevokeToken := fun s token =>
    if (s.tokens token).isSome then s.RevokeToken token
    else (some Error.ErrInvalidToken, s)

end service

/-! ## Lemmas on the in-memory store -/

namespace storage

/-- A storage call never changes the entry of a username that is stored. -/
theorem users_mono (s : InMemoryStorage) (op : Op) (k : String)
    (h : s.users k ≠ none) : (s.apply op).users k = s.users k := by
  cases op <;> simp only [InMemoryStorage.apply, InMemoryStorage.StoreToken,
    InMemoryStorage.RevokeToken]
  case CreateUser user =>
    unfold InMemoryStorage.CreateUser
    split
    · rfl
    · rename_i hn
      have : k ≠ user.Username := by
        intro hk
        subst hk
        cases hu : s.users user.Username <;> simp_all
      simp [Function.update_noteq this]

/-- A username absent after a storage call was absent before it. -/
theorem users_none_of_apply (s : InMemoryStorage) (op : Op) (k : String)
    (h : (s.apply op).users k = none) : s.users k = none := by
  by_contra hc
  rw [users_mono s op k hc] at h
  exact hc h

/-- A record whose `CreateUser` succeeds during a run has a username that was
not stored when the run began. -/
theorem created_fresh (ops : List Op) : ∀ (s : InMemoryStorage) (r : User),
    r ∈ s.created ops → s.users r.Username = none := by
  induction ops with
  | nil => intro s r h; simp [InMemoryStorage.created] at h
  | cons op ops ih =>
    intro s r h
    cases op with
    | CreateUser user =>
      simp only [InMemoryStorage.created, List.mem_append] at h
      rcases h with h | h
      · unfold InMemoryStorage.CreateUser at h
        split at h
        · simp at h
        · rename_i hn
          simp at h
          subst h
          simpa using hn
      · exact users_none_of_apply s (Op.CreateUser user) _ (ih _ r h)
    | _ =>
      simp only [InMemoryStorage.created] at h
      exact users_none_of_apply s _ _ (ih _ r h)

/-- The usernames of the records created during a run are pairwise distinct. -/
theorem created_nodup (ops : List Op) : ∀ (s : InMemoryStorage),
    ((s.created ops).map User.Username).Nodup := by
  induction ops with
  | nil => intro s; simp [InMemoryStorage.created]
  | cons op ops ih =>
    intro s
    cases op with
    | CreateUser user =>
      simp only [InMemoryStorage.created]
      by_cases hs : (s.CreateUser user).1 = none
      · rw [if_pos hs]
        simp only [List.singleton_append, List.map_cons, List.nodup_cons, List.mem_map, not_exists,
          not_and]
        refine ⟨?_, ih _⟩
        intro r hr hru
        have := created_fresh ops _ r hr
        rw [hru] at this
        unfold InMemoryStorage.CreateUser at this hs
        split at hs
        · simp at hs
        · rename_i hn
          rw [if_neg hn] at this
          simp at this
      · rw [if_neg hs]
        simpa using ih _
    | _ =>
      simp only [InMemoryStorage.created]
      exact ih _

/-- One storage call keeps the two user indexes in agreement when the record it
creates, if any, carries an id the id index does not hold. -/
theorem indexes_agree_step (s : InMemoryStorage) (op : Op)
    (hinv : (∀ u r, s.users u = some r → r.Username = u ∧ s.userIDs r.ID = some r) ∧
      (∀ i r, s.userIDs i = some r → r.ID = i ∧ s.users r.Username = some r))
    (hfresh : ∀ r ∈ s.created [op], s.userIDs r.ID = none) :
    (∀ u r, (s.apply op).users u = some r →
      r.Username = u ∧ (s.apply op).userIDs r.ID = some r) ∧
    (∀ i r, (s.apply op).userIDs i = some r →
      r.ID = i ∧ (s.apply op).users r.Username = some r) := by
  cases op with
  | CreateUser user =>
    simp only [InMemoryStorage.created, List.append_nil] at hfresh
    simp only [InMemoryStorage.apply]
    unfold InMemoryStorage.CreateUser at hfresh ⊢
    cases hu : s.users user.Username with
    | some r0 => simpa [hu] using hinv
    | none =>
      simp only [hu, Option.isSome_none, Bool.false_eq_true, if_false, if_true, List.mem_singleton,
        forall_eq] at hfresh ⊢
      constructor
      · intro u r h
        by_cases e : u = user.Username
        · subst e
          simp only [Function.update_same, Option.some.injEq] at h
          subst h
          simp
        · rw [Function.update_noteq e] at h
          have h1 := hinv.1 u r h
          refine ⟨h1.1, ?_⟩
          have : r.ID ≠ user.ID := by
            intro e2
            rw [e2, hfresh] at h1
            cases h1.2
          rw [Function.update_noteq this]
          exact h1.2
      · intro i r h
        by_cases e : i = user.ID
        · subst e
          simp only [Function.update_same, Option.some.injEq] at h
          subst h
          simp
        · rw [Function.update_noteq e] at h
          have h1 := hinv.2 i r h
          refine ⟨h1.1, ?_⟩
          have : r.Username ≠ user.Username := by
            intro e2
            rw [e2, hu] at h1
            cases h1.2
          rw [Function.update_noteq this]
          exact h1.2
  | GetUserByUsername _ => exact hinv
  | GetUserByID _ => exact hinv
  | StoreToken _ _ => exact hinv
  | ValidateToken _ => exact hinv
  | RevokeToken _ => exact hinv

/-- The records created by a run, split at its first call. -/
theorem created_cons (s : InMemoryStorage) (op : Op) (ops : List Op) :
    s.created (op :: ops) = s.created [op] ++ (s.apply op).created ops := by
  cases op <;> simp [InMemoryStorage.created, InMemoryStorage.apply]

/-- A storage call changes the id index only at the id of the record it creates. -/
theorem userIDs_apply (s : InMemoryStorage) (op : Op) (i : String)
    (h : ∀ r ∈ s.created [op], r.ID ≠ i) : (s.apply op).userIDs i = s.userIDs i := by
  cases op with
  | CreateUser user =>
    simp only [InMemoryStorage.created, List.append_nil] at h
    simp only [InMemoryStorage.apply]
    unfold InMemoryStorage.CreateUser at h ⊢
    cases hu : s.users user.Username with
    | some r0 => simp [hu]
    | none =>
      simp only [hu, Option.isSome_none, Bool.false_eq_true, if_false, if_true,
        List.mem_singleton, forall_eq] at h ⊢
      exact Function.update_noteq (Ne.symm h) _ _
  | GetUserByUsername _ => rfl
  | GetUserByID _ => rfl
  | StoreToken _ _ => rfl
  | ValidateToken _ => rfl
  | RevokeToken _ => rfl

/-- A run keeps the two user indexes in agreement when the records it creates
carry pairwise distinct ids that the id index did not hold at the start. -/
theorem indexes_agree_run (ops : List Op) : ∀ (s : InMemoryStorage),
    ((∀ u r, s.users u = some r → r.Username = u ∧ s.userIDs r.ID = some r) ∧
      (∀ i r, s.userIDs i = some r → r.ID = i ∧ s.users r.Username = some r)) →
    ((s.created ops).map User.ID).Nodup →
    (∀ r ∈ s.created ops, s.userIDs r.ID = none) →
    (∀ u r, (s.run ops).users u = some r →
      r.Username = u ∧ (s.run ops).userIDs r.ID = some r) ∧
    (∀ i r, (s.run ops).userIDs i = some r →
      r.ID = i ∧ (s.run ops).users r.Username = some r) := by
  induction ops with
  | nil => intro s hinv _ _; exact hinv
  | cons op ops ih =>
    intro s hinv hnd hfresh
    rw [created_cons] at hnd hfresh
    simp only [List.map_append, List.nodup_append, List.mem_append] at hnd hfresh
    refine ih (s.apply op)
      (indexes_agree_step s op hinv (fun r hr => hfresh r (Or.inl hr))) hnd.2.1 ?_
    intro r hr
    rw [userIDs_apply s op r.ID]
    · exact hfresh r (Or.inr hr)
    · intro r0 hr0 e
      exact hnd.2.2 (List.mem_map_of_mem _ hr0) (e ▸ List.mem_map_of_mem _ hr)

/-- A run never changes the entry of a username that is stored. -/
theorem run_users (ops : List Op) : ∀ (s : InMemoryStorage) (k : String) (r : User),
    s.users k = some r → (s.run ops).users k = some r := by
  induction ops with
  | nil => intro s k r h; exact h
  | cons op ops ih =>
    intro s k r h
    refine ih (s.apply op) k r ?_
    rw [users_mono s op k (by rw [h]; exact Option.some_ne_none r)]
    exact h

/-- A run changes the id index only at the ids of the records it creates. -/
theorem run_userIDs (ops : List Op) : ∀ (s : InMemoryStorage) (i : String),
    (∀ r ∈ s.created ops, r.ID ≠ i) → (s.run ops).userIDs i = s.userIDs i := by
  induction ops with
  | nil => intro s i _; rfl
  | cons op ops ih =>
    intro s i h
    rw [created_cons] at h
    simp only [List.mem_append] at h
    show ((s.apply op).run ops).userIDs i = _
    rw [ih (s.apply op) i (fun r hr => h r (Or.inr hr)),
      userIDs_apply s op i (fun r hr => h r (Or.inl hr))]

end storage

/-! ## The workflow over the in-memory store -/

namespace service

open storage

/-- The stand-in verifies a hash against exactly the password it was made from. -/
theorem testBcrypt_ideal : testBcrypt.Ideal := by
  intro salt p cost h hg q
  simp only [testBcrypt] at hg ⊢
  split at hg
  · cases hg
  · cases hg
    constructor
    · intro hq
      split at hq
      · rename_i he
        have := congrArg String.data he
        simp at this
        exact (String.ext this).symm
      · cases hq
    · intro hq
      subst hq
      simp

/-- `Logout` over the in-memory store, storage calls unfolded. -/
theorem Logout_mem (s : InMemoryStorage) (req : LogoutRequest) :
    AuthService.Logout mem s req =
      if req.Token = "" then
        { resp := { Success := false, Message := "token is required" }, err := none, store := s }
      else
        { resp := { Success := true, Message := "logout successful" }, err := none,
          store := { s with tokens := Function.update s.tokens req.Token none } } := by
  simp only [AuthService.Logout, mem, InMemoryStorage.asStorage, InMemoryStorage.RevokeToken]

/-- `ValidateToken` over the in-memory store, storage calls unfolded. -/
theorem ValidateToken_mem (s : InMemoryStorage) (req : ValidateTokenRequest) :
    AuthService.ValidateToken mem s req =
      if req.Token = "" then { resp := { Valid := false }, err := none, store := s }
      else match s.tokens req.Token with
        | none => { resp := { Valid := false }, err := none, store := s }
        | some userID =>
          match s.userIDs userID with
          | none => { resp := { Valid := false }, err := none, store := s }
          | some user =>
            { resp := { Valid := true, UserId := user.ID, Username := user.Username },
              err := none, store := s } := by
  simp only [AuthService.ValidateToken, mem, InMemoryStorage.asStorage,
    InMemoryStorage.ValidateToken, InMemoryStorage.GetUserByID]
  split
  · rfl
  · cases h : s.tokens req.Token with
    | none => simp
    | some userID =>
      cases h2 : s.userIDs userID <;> simp [h2]

/-- `Login` over the in-memory store, storage calls unfolded. -/
theorem Login_mem (b : Bcrypt) (uuid : String) (s : InMemoryStorage) (req : LoginRequest) :
    AuthService.Login mem b uuid s req =
      if req.Username = "" ∨ req.Password = "" then
        { resp := { Success := false, Message := "username and password are required" },
          err := none, store := s }
      else match s.users req.Username with
        | none =>
          { resp := { Success := false, Message := "invalid username or password" },
            err := none, store := s }
        | some user =>
          match b.CompareHashAndPassword user.PasswordHash req.Password with
          | some _ =>
            { resp := { Success := false, Message := "invalid username or password" },
              err := none, store := s }
          | none =>
            { resp := { Token := uuid, UserId := user.ID, Success := true,
                        Message := "login successful" },
              err := none,
              store := { s with tokens := Function.update s.tokens uuid (some user.ID) } } := by
  simp only [AuthService.Login, mem, InMemoryStorage.asStorage,
    InMemoryStorage.GetUserByUsername, InMemoryStorage.StoreToken]
  split
  · rfl
  · cases h : s.users req.Username with
    | none => simp
    | some user =>
      cases h2 : b.CompareHashAndPassword user.PasswordHash req.Password <;> simp [h2]

/-- `Register` over the in-memory store, storage calls unfolded. -/
theorem Register_mem (b : Bcrypt) (salt uuid : String) (s : InMemoryStorage)
    (req : RegisterRequest) :
    AuthService.Register mem b salt uuid s req =
      if req.Username = "" ∨ req.Email = "" ∨ req.Password = "" then
        { resp := { Success := false, Message := "username, email, and password are required" },
          err := none, store := s }
      else match b.GenerateFromPassword salt req.Password DefaultCost with
        | Except.error err =>
          { resp := { Success := false, Message := "failed to hash password" },
            err := some (Error.Wrapped "failed to hash password" err), store := s }
        | Except.ok hashedPassword =>
          match s.users req.Username with
          | some _ =>
            { resp := { Success := false, Message := "user already exists" },
              err := none, store := s }
          | none =>
            { resp := { UserId := uuid, Success := true,
                        Message := "user registered successfully" },
              err := none,
              store :=
                { s with
                  users := Function.update s.users req.Username
                    (some ⟨uuid, req.Username, req.Email, hashedPassword⟩)
                  userIDs := Function.update s.userIDs uuid
                    (some ⟨uuid, req.Username, req.Email, hashedPassword⟩) } } := by
  simp only [AuthService.Register, mem, InMemoryStorage.asStorage, InMemoryStorage.CreateUser]
  split
  · rfl
  · cases h : b.GenerateFromPassword salt req.Password DefaultCost with
    | error e => simp
    | ok hp =>
      cases h2 : s.users req.Username <;> simp [h2]

/-- A workflow call never changes the entry of a stored username. -/
theorem exec_users (b : Bcrypt) (s : InMemoryStorage) (c : Call) (u : String) (r : User)
    (h : s.users u = some r) : (c.exec b s).users u = some r := by
  cases c with
  | Register salt uuid req =>
    simp only [Call.exec, Register_mem]
    split
    · exact h
    · split
      · exact h
      · split
        · exact h
        · rename_i hn
          have : u ≠ req.Username := by
            intro hu
            rw [hu, hn] at h
            cases h
          simpa [Function.update_noteq this] using h
  | Login uuid req =>
    simp only [Call.exec, Login_mem]
    split
    · exact h
    · split
      · exact h
      · split <;> exact h
  | ValidateToken req =>
    simp only [Call.exec, ValidateToken_mem]
    split
    · exact h
    · split
      · exact h
      · split <;> exact h
  | Logout req =>
    simp only [Call.exec, Logout_mem]
    split <;> exact h

/-- A workflow call changes the id index at `id` only by handing out `id`. -/
theorem exec_userIDs (b : Bcrypt) (s : InMemoryStorage) (c : Call) (id : String) (r : User)
    (h : s.userIDs id = some r) (hid : id ∉ c.issued b s) :
    (c.exec b s).userIDs id = some r := by
  cases c with
  | Register salt uuid req =>
    simp only [Call.exec, Call.issued, Register_mem] at hid ⊢
    split
    · exact h
    · rename_i hv
      simp only [hv, if_false] at hid
      split
      · exact h
      · rename_i hp hg
        simp only [hg] at hid
        split
        · exact h
        · rename_i hn
          simp only [hn] at hid
          simp at hid
          simpa [Function.update_noteq hid] using h
  | Login uuid req =>
    simp only [Call.exec, Login_mem]
    split
    · exact h
    · split
      · exact h
      · split <;> exact h
  | ValidateToken req =>
    simp only [Call.exec, ValidateToken_mem]
    split
    · exact h
    · split
      · exact h
      · split <;> exact h
  | Logout req =>
    simp only [Call.exec, Logout_mem]
    split <;> exact h

/-- A workflow call changes the token index at `t` only by handing out `t`
or by being `Logout(t)`. -/
theorem exec_tokens (b : Bcrypt) (s : InMemoryStorage) (c : Call) (t id : String)
    (h : s.tokens t = some id) (ht : t ∉ c.issued b s) (hl : c ≠ Call.Logout ⟨t⟩) :
    (c.exec b s).tokens t = some id := by
  cases c with
  | Register salt uuid req =>
    simp only [Call.exec, Register_mem]
    split
    · exact h
    · split
      · exact h
      · split <;> exact h
  | Login uuid req =>
    simp only [Call.exec, Call.issued, Login_mem] at ht ⊢
    split
    · exact h
    · rename_i hv
      simp only [hv, if_false] at ht
      split
      · exact h
      · rename_i user hu
        simp only [hu] at ht
        split
        · exact h
        · rename_i hc
          simp only [hc] at ht
          simp at ht
          simpa [Function.update_noteq ht] using h
  | ValidateToken req =>
    simp only [Call.exec, ValidateToken_mem]
    split
    · exact h
    · split
      · exact h
      · split <;> exact h
  | Logout req =>
    simp only [Call.exec, Logout_mem]
    split
    · exact h
    · have : t ≠ req.Token := by
        intro e
        apply hl
        cases req
        simp_all
      simpa [Function.update_noteq this] using h

/-- Lifted to sequences: the entry of a stored username stays. -/
theorem runCalls_users (b : Bcrypt) (cs : List Call) : ∀ (s : InMemoryStorage) (u : String)
    (r : User), s.users u = some r → (runCalls b s cs).users u = some r := by
  induction cs with
  | nil => intro s u r h; exact h
  | cons c cs ih => intro s u r h; exact ih _ u r (exec_users b s c u r h)

/-- Lifted to sequences: the id entry stays while `id` is not handed out again. -/
theorem runCalls_userIDs (b : Bcrypt) (cs : List Call) : ∀ (s : InMemoryStorage) (id : String)
    (r : User), s.userIDs id = some r → id ∉ issuedBy b s cs →
      (runCalls b s cs).userIDs id = some r := by
  induction cs with
  | nil => intro s id r h _; exact h
  | cons c cs ih =>
    intro s id r h hid
    simp only [issuedBy, List.mem_append, not_or] at hid
    exact ih _ id r (exec_userIDs b s c id r h hid.1) hid.2

/-- Lifted to sequences: a binding stays while the token is neither handed out
again nor logged out. -/
theorem runCalls_tokens (b : Bcrypt) (cs : List Call) : ∀ (s : InMemoryStorage) (t id : String),
    s.tokens t = some id → t ∉ issuedBy b s cs → Call.Logout ⟨t⟩ ∉ cs →
      (runCalls b s cs).tokens t = some id := by
  induction cs with
  | nil => intro s t id h _ _; exact h
  | cons c cs ih =>
    intro s t id h ht hl
    simp only [issuedBy, List.mem_append, not_or] at ht
    simp only [List.mem_cons, not_or] at hl
    exact ih _ t id (exec_tokens b s c t id h ht.1 (fun e => hl.1 e.symm)) ht.2 hl.2

/-- Running a concatenation is running the parts in turn. -/
theorem runCalls_append (b : Bcrypt) (cs ds : List Call) : ∀ (s : InMemoryStorage),
    runCalls b s (cs ++ ds) = runCalls b (runCalls b s cs) ds := by
  induction cs with
  | nil => intro s; rfl
  | cons c cs ih => intro s; exact ih _

/-- The identifiers handed out by a concatenation. -/
theorem issuedBy_append (b : Bcrypt) (cs ds : List Call) : ∀ (s : InMemoryStorage),
    issuedBy b s (cs ++ ds) = issuedBy b s cs ++ issuedBy b (runCalls b s cs) ds := by
  induction cs with
  | nil => intro s; rfl
  | cons c cs ih =>
    intro s
    show issuedBy b s (c :: (cs ++ ds)) = _
    simp only [issuedBy, runCalls, ih, List.append_assoc]

/-- Dropping the count from `LoginCounted` gives `Login`. -/
theorem LoginCounted_fst {σ : Type} (st : Storage σ) (b : Bcrypt) (uuid : String) (s : σ)
    (req : LoginRequest) :
    (AuthService.LoginCounted st b uuid s req).1 = AuthService.Login st b uuid s req := by
  unfold AuthService.LoginCounted AuthService.Login
  split
  · rfl
  · split
    · split <;> rfl
    · split
      · rfl
      · simp only
        split <;> rfl

/-- The response of the workflow's `ValidateToken` depends on the store only
through the binding of the token and the id index. -/
theorem ValidateToken_resp_congr (s s' : InMemoryStorage) (t : String)
    (h1 : s'.tokens t = s.tokens t) (h2 : s'.userIDs = s.userIDs) :
    (AuthService.ValidateToken mem s' ⟨t⟩).resp = (AuthService.ValidateToken mem s ⟨t⟩).resp := by
  rw [ValidateToken_mem, ValidateToken_mem]
  by_cases ht : t = ""
  · simp [ht]
  · simp only [ht, if_false, h1, h2]
    cases s.tokens t with
    | none => rfl
    | some id =>
      simp only
      cases h3 : s.userIDs id <;> rfl

end service

/-! ## Claims -/

namespace service

open storage

/-- C1. With verification accepting a (hash, password) pair exactly when the
hash was produced from that password: once `Register(username, email, p)` has
succeeded on the in-memory store, `Login(username, q)` on the store it left
returns success=true exactly when `q = p`; with `q = p` the response carries
the generated token and the userId Register returned, with a nil error; with
any other `q` (the empty string included) success=false. -/
theorem C1_login_succeeds_iff_password (b : Bcrypt) (hb : b.Ideal) (s : InMemoryStorage)
    (salt uuid tok username email p q : String)
    (hreg : (AuthService.Register mem b salt uuid s ⟨username, email, p⟩).resp.Success = true) :
    ((AuthService.Login mem b tok
        (AuthService.Register mem b salt uuid s ⟨username, email, p⟩).store
        ⟨username, q⟩).resp.Success = true ↔ q = p) ∧
    (q = p →
      (AuthService.Login mem b tok
        (AuthService.Register mem b salt uuid s ⟨username, email, p⟩).store
        ⟨username, q⟩).resp =
        { Token := tok
          UserId := (AuthService.Register mem b salt uuid s ⟨username, email, p⟩).resp.UserId
          Success := true
          Message := "login successful" } ∧
      (AuthService.Login mem b tok
        (AuthService.Register mem b salt uuid s ⟨username, email, p⟩).store
        ⟨username, q⟩).err = none) ∧
    (q ≠ p →
      (AuthService.Login mem b tok
        (AuthService.Register mem b salt uuid s ⟨username, email, p⟩).store
        ⟨username, q⟩).resp.Success = false) := by
  rw [Register_mem] at hreg ⊢
  by_cases hv : username = "" ∨ email = "" ∨ p = ""
  · simp [hv] at hreg
  · simp only [hv, if_false] at hreg ⊢
    cases hg : b.GenerateFromPassword salt p DefaultCost with
    | error e => simp [hg] at hreg
    | ok h =>
      simp only [hg] at hreg ⊢
      cases hu : s.users username with
      | some r => simp [hu] at hreg
      | none =>
        simp only [hu] at hreg ⊢
        have hi := hb salt p DefaultCost h hg q
        push_neg at hv
        rw [Login_mem]
        by_cases hq : q = ""
        · have hqp : q ≠ p := by rw [hq]; exact fun h => hv.2.2 h.symm
          simp [hq, hqp]
          intro h; exact hqp (hq.trans h)
        · simp only [hv.1, hq, or_self, if_false, Function.update_same]
          cases hc : b.CompareHashAndPassword h q with
          | none =>
            have := hi.mp hc
            simp [this]
          | some e =>
            have : q ≠ p := fun h2 => by rw [hi.mpr h2] at hc; cases hc
            simp [this]

/-- C1 at `Register("alice", "a@x.com", "pw1")` on the empty store, followed by
`Login("alice", "pw1")`. -/
theorem C1_login_succeeds_iff_password_witness :
    (AuthService.Register mem testBcrypt "salt" "u1" NewInMemoryStorage
      ⟨"alice", "a@x.com", "pw1"⟩).resp.Success = true ∧
    (((AuthService.Login mem testBcrypt "t1"
        (AuthService.Register mem testBcrypt "salt" "u1" NewInMemoryStorage
          ⟨"alice", "a@x.com", "pw1"⟩).store
        ⟨"alice", "pw1"⟩).resp.Success = true ↔ "pw1" = "pw1") ∧
    ("pw1" = "pw1" →
      (AuthService.Login mem testBcrypt "t1"
        (AuthService.Register mem testBcrypt "salt" "u1" NewInMemoryStorage
          ⟨"alice", "a@x.com", "pw1"⟩).store
        ⟨"alice", "pw1"⟩).resp =
        { Token := "t1"
          UserId := (AuthService.Register mem testBcrypt "salt" "u1" NewInMemoryStorage
            ⟨"alice", "a@x.com", "pw1"⟩).resp.UserId
          Success := true
          Message := "login successful" } ∧
      (AuthService.Login mem testBcrypt "t1"
        (AuthService.Register mem testBcrypt "salt" "u1" NewInMemoryStorage
          ⟨"alice", "a@x.com", "pw1"⟩).store
        ⟨"alice", "pw1"⟩).err = none) ∧
    ("pw1" ≠ "pw1" →
      (AuthService.Login mem testBcrypt "t1"
        (AuthService.Register mem testBcrypt "salt" "u1" NewInMemoryStorage
          ⟨"alice", "a@x.com", "pw1"⟩).store
        ⟨"alice", "pw1"⟩).resp.Success = false)) :=
  ⟨by decide,
    C1_login_succeeds_iff_password testBcrypt testBcrypt_ideal NewInMemoryStorage
      "salt" "u1" "t1" "alice" "a@x.com" "pw1" "pw1" (by decide)⟩

/-- C2. With the user ids and tokens handed out during a run non-empty and
pairwise distinct: from any store, after a successful `Register` of `u`, any
calls `mid`, a successful `Login` of `u` that returns token `t`, and any calls
`post` without `Logout(t)` (none at all for the state right after the Login),
`ValidateToken(t)` answers valid=true with the userId `Register` returned and
the username of `u`. -/
theorem C2_token_validates_until_logout (b : Bcrypt) (s : InMemoryStorage)
    (salt uuid tok pw : String) (reg : RegisterRequest) (mid post : List Call)
    (hreg : (AuthService.Register mem b salt uuid s reg).resp.Success = true)
    (hlogin : (AuthService.Login mem b tok
        (runCalls b (AuthService.Register mem b salt uuid s reg).store mid)
        ⟨reg.Username, pw⟩).resp.Success = true)
    (hfresh : (issuedBy b s
        (Call.Register salt uuid reg :: (mid ++ Call.Login tok ⟨reg.Username, pw⟩ :: post))).Nodup)
    (hne : ∀ x ∈ issuedBy b s
        (Call.Register salt uuid reg :: (mid ++ Call.Login tok ⟨reg.Username, pw⟩ :: post)),
        x ≠ "")
    (hout : Call.Logout ⟨(AuthService.Login mem b tok
        (runCalls b (AuthService.Register mem b salt uuid s reg).store mid)
        ⟨reg.Username, pw⟩).resp.Token⟩ ∉ post) :
    (AuthService.ValidateToken mem
        (runCalls b s
          (Call.Register salt uuid reg :: (mid ++ Call.Login tok ⟨reg.Username, pw⟩ :: post)))
        ⟨(AuthService.Login mem b tok
          (runCalls b (AuthService.Register mem b salt uuid s reg).store mid)
          ⟨reg.Username, pw⟩).resp.Token⟩).resp =
      { Valid := true
        UserId := (AuthService.Register mem b salt uuid s reg).resp.UserId
        Username := reg.Username } := by
  -- the run, cut at the two calls
  simp only [runCalls, issuedBy, Call.exec, Call.issued, runCalls_append, issuedBy_append,
    hreg, hlogin, if_true] at hfresh hne ⊢
  -- what the successful Register did
  obtain ⟨h, hid, hu1, hi1⟩ : ∃ h,
      (AuthService.Register mem b salt uuid s reg).resp.UserId = uuid ∧
      (AuthService.Register mem b salt uuid s reg).store.users reg.Username =
        some ⟨uuid, reg.Username, reg.Email, h⟩ ∧
      (AuthService.Register mem b salt uuid s reg).store.userIDs uuid =
        some ⟨uuid, reg.Username, reg.Email, h⟩ := by
    rw [Register_mem] at hreg ⊢
    split at hreg
    · simp at hreg
    · rename_i hv
      simp only [hv, if_false]
      cases hg : b.GenerateFromPassword salt reg.Password DefaultCost with
      | error e => simp [hg] at hreg
      | ok h =>
        simp only [hg] at hreg ⊢
        cases hu : s.users reg.Username with
        | some r => simp [hu] at hreg
        | none => exact ⟨h, by simp⟩
  generalize AuthService.Register mem b salt uuid s reg = o1 at *
  rw [hid] at hfresh hne ⊢
  -- the state in which Login runs
  have hu2 := runCalls_users b mid o1.store _ _ hu1
  have hi2 := runCalls_userIDs b mid o1.store _ _ hi1 (by
    intro hm
    simp only [List.singleton_append, List.nodup_cons, List.mem_append] at hfresh
    exact hfresh.1 (Or.inl hm))
  generalize runCalls b o1.store mid = s2 at *
  -- what the successful Login did
  obtain ⟨htok, ht3, hi3⟩ :
      (AuthService.Login mem b tok s2 ⟨reg.Username, pw⟩).resp.Token = tok ∧
      (AuthService.Login mem b tok s2 ⟨reg.Username, pw⟩).store.tokens tok = some uuid ∧
      (AuthService.Login mem b tok s2 ⟨reg.Username, pw⟩).store.userIDs uuid =
        some ⟨uuid, reg.Username, reg.Email, h⟩ := by
    rw [Login_mem] at hlogin ⊢
    split at hlogin
    · simp at hlogin
    · rename_i hv
      simp only [hv, if_false, hu2] at hlogin ⊢
      cases hc : b.CompareHashAndPassword h pw with
      | some e => simp [hc] at hlogin
      | none => simp [hi2]
  generalize AuthService.Login mem b tok s2 ⟨reg.Username, pw⟩ = o2 at *
  rw [htok] at hfresh hne hout ⊢
  have hnd := hfresh
  simp only [List.singleton_append, List.nodup_cons, List.mem_append, List.mem_cons,
    List.nodup_append, not_or] at hnd
  have hi4 := runCalls_userIDs b post o2.store _ _ hi3 hnd.1.2.2
  have ht4 := runCalls_tokens b post o2.store _ _ ht3 hnd.2.2.1.1 hout
  have htne : tok ≠ "" := hne tok (by simp)
  rw [ValidateToken_mem]
  simp [htne, ht4, hi4]

/-- C2 on a run from the empty store: alice registers, bob registers and
alice logs in once (token `t0`), alice logs in again (token `t1`), then `t0`
is logged out, bob logs in and `t1` is validated. -/
theorem C2_token_validates_until_logout_witness :
    (AuthService.ValidateToken mem
        (runCalls testBcrypt NewInMemoryStorage
          (Call.Register "salt" "u1" ⟨"alice", "a@x.com", "pw1"⟩ ::
            ([Call.Register "salt" "u2" ⟨"bob", "b@x.com", "pw2"⟩,
              Call.Login "t0" ⟨"alice", "pw1"⟩] ++
              Call.Login "t1" ⟨"alice", "pw1"⟩ ::
              [Call.Logout ⟨"t0"⟩, Call.Login "t2" ⟨"bob", "pw2"⟩,
                Call.ValidateToken ⟨"t1"⟩])))
        ⟨(AuthService.Login mem testBcrypt "t1"
          (runCalls testBcrypt
            (AuthService.Register mem testBcrypt "salt" "u1" NewInMemoryStorage
              ⟨"alice", "a@x.com", "pw1"⟩).store
            [Call.Register "salt" "u2" ⟨"bob", "b@x.com", "pw2"⟩,
              Call.Login "t0" ⟨"alice", "pw1"⟩])
          ⟨"alice", "pw1"⟩).resp.Token⟩).resp =
      { Valid := true
        UserId := (AuthService.Register mem testBcrypt "salt" "u1" NewInMemoryStorage
          ⟨"alice", "a@x.com", "pw1"⟩).resp.UserId
        Username := "alice" } :=
  C2_token_validates_until_logout testBcrypt NewInMemoryStorage "salt" "u1" "t1" "pw1"
    ⟨"alice", "a@x.com", "pw1"⟩
    [Call.Register "salt" "u2" ⟨"bob", "b@x.com", "pw2"⟩, Call.Login "t0" ⟨"alice", "pw1"⟩]
    [Call.Logout ⟨"t0"⟩, Call.Login "t2" ⟨"bob", "pw2"⟩, Call.ValidateToken ⟨"t1"⟩]
    (by decide) (by decide) (by decide) (by decide) (by decide)

/-- C3. For every store and every non-empty token `t`, `Logout(t)` returns
success=true with a nil error; afterwards `ValidateToken(t)` reports
valid=false; a second `Logout(t)` again returns success=true with a nil error
and leaves the store exactly as the first one left it. -/
theorem C3_logout_revokes_idempotent (s : InMemoryStorage) (t : String) (ht : t ≠ "") :
    (AuthService.Logout mem s ⟨t⟩).resp.Success = true ∧
    (AuthService.Logout mem s ⟨t⟩).err = none ∧
    (AuthService.ValidateToken mem (AuthService.Logout mem s ⟨t⟩).store ⟨t⟩).resp.Valid = false ∧
    (AuthService.Logout mem (AuthService.Logout mem s ⟨t⟩).store ⟨t⟩).resp.Success = true ∧
    (AuthService.Logout mem (AuthService.Logout mem s ⟨t⟩).store ⟨t⟩).err = none ∧
    (AuthService.Logout mem (AuthService.Logout mem s ⟨t⟩).store ⟨t⟩).store =
      (AuthService.Logout mem s ⟨t⟩).store := by
  simp [Logout_mem, ValidateToken_mem, ht]

/-- C3 at the token `t1` that a Login on `aliceStore` has just stored. -/
theorem C3_logout_revokes_idempotent_witness :
    "t1" ≠ "" ∧
    (AuthService.Logout mem
      (AuthService.Login mem testBcrypt "t1" aliceStore ⟨"alice", "pw1"⟩).store
      ⟨"t1"⟩).resp.Success = true ∧
    (AuthService.ValidateToken mem
      (AuthService.Logout mem
        (AuthService.Login mem testBcrypt "t1" aliceStore ⟨"alice", "pw1"⟩).store
        ⟨"t1"⟩).store ⟨"t1"⟩).resp.Valid = false :=
  ⟨by decide,
    (C3_logout_revokes_idempotent
      (AuthService.Login mem testBcrypt "t1" aliceStore ⟨"alice", "pw1"⟩).store "t1"
      (by decide)).1,
    (C3_logout_revokes_idempotent
      (AuthService.Login mem testBcrypt "t1" aliceStore ⟨"alice", "pw1"⟩).store "t1"
      (by decide)).2.2.1⟩

/-- C4. The storage call `CreateUser` fails with `ErrUserAlreadyExists`
exactly when the username index holds an entry for the record's username,
and then leaves the store unchanged; otherwise it succeeds. The outcome is
the same for two records with the same username whatever their other fields,
and the match is case-sensitive. In every sequence of storage calls from the
empty store, at most one successful `CreateUser` carries a given username. -/
theorem C4_create_user_unique_username (s : InMemoryStorage) (user : User) (ops : List Op) :
    ((s.CreateUser user).1 = some Error.ErrUserAlreadyExists ↔
      ∃ r, s.users user.Username = some r) ∧
    ((s.CreateUser user).1 = some Error.ErrUserAlreadyExists → (s.CreateUser user).2 = s) ∧
    (s.users user.Username = none → (s.CreateUser user).1 = none) ∧
    (∀ other : User, other.Username = user.Username →
      (s.CreateUser other).1 = (s.CreateUser user).1) ∧
    ((NewInMemoryStorage.CreateUser ⟨"u1", "alice", "a@x.com", "h1"⟩).2.CreateUser
      ⟨"u2", "Alice", "a@x.com", "h1"⟩).1 = none ∧
    (∀ U : String,
      List.countP (fun r => decide (r.Username = U)) (NewInMemoryStorage.created ops) ≤ 1) := by
  refine ⟨?_, ?_, ?_, ?_, by decide, ?_⟩
  · unfold InMemoryStorage.CreateUser
    cases h : s.users user.Username <;> simp [h]
  · unfold InMemoryStorage.CreateUser
    cases h : s.users user.Username <;> simp [h]
  · intro h
    unfold InMemoryStorage.CreateUser
    simp [h]
  · intro other ho
    unfold InMemoryStorage.CreateUser
    rw [ho]
    cases h : s.users user.Username <;> simp [h]
  · intro U
    have h := storage.created_nodup ops NewInMemoryStorage
    have h2 := List.nodup_iff_count_le_one.mp h U
    rw [List.count, List.countP_map] at h2
    refine le_trans (le_of_eq ?_) h2
    congr 1

/-- C5, as stated, fails: on `aliceStore` the username `""` is not stored and
`alice` is stored with a hash that does not verify `wrong`, yet
`Login("", "wrong")` answers "username and password are required" while
`Login("alice", "wrong")` answers "invalid username or password". -/
theorem C5_counterexample :
    aliceStore.users "" = none ∧
    (∃ r, aliceStore.users "alice" = some r ∧
      testBcrypt.CompareHashAndPassword r.PasswordHash "wrong" ≠ none) ∧
    (AuthService.Login mem testBcrypt "t1" aliceStore ⟨"", "wrong"⟩).resp.Message =
      "username and password are required" ∧
    (AuthService.Login mem testBcrypt "t1" aliceStore ⟨"alice", "wrong"⟩).resp.Message =
      "invalid username or password" ∧
    (AuthService.Login mem testBcrypt "t1" aliceStore ⟨"", "wrong"⟩).resp ≠
      (AuthService.Login mem testBcrypt "t1" aliceStore ⟨"alice", "wrong"⟩).resp := by
  refine ⟨by decide, ⟨⟨"u1", "alice", "a@x.com", "$2a$pw1"⟩, by decide, by decide⟩,
    by decide, by decide, by decide⟩

/-- C5, amended. For non-empty usernames and non-empty passwords, `Login` with
a username that is not stored and `Login` with a stored username whose hash
does not verify the supplied password return the same response: message
"invalid username or password", success=false, empty token, empty userId,
and a nil error. -/
theorem C5_login_failures_indistinguishable (b : Bcrypt) (s s' : InMemoryStorage)
    (tok tok' username username' pw pw' : String) (r : User)
    (hu : username ≠ "") (hp : pw ≠ "") (hu' : username' ≠ "") (hp' : pw' ≠ "")
    (habsent : s.users username = none)
    (hstored : s'.users username' = some r)
    (hwrong : b.CompareHashAndPassword r.PasswordHash pw' ≠ none) :
    (AuthService.Login mem b tok s ⟨username, pw⟩).resp =
      (AuthService.Login mem b tok' s' ⟨username', pw'⟩).resp ∧
    (AuthService.Login mem b tok s ⟨username, pw⟩).resp =
      { Token := "", UserId := "", Success := false,
        Message := "invalid username or password" } ∧
    (AuthService.Login mem b tok s ⟨username, pw⟩).err = none ∧
    (AuthService.Login mem b tok' s' ⟨username', pw'⟩).err = none := by
  cases hc : b.CompareHashAndPassword r.PasswordHash pw' with
  | none => exact absurd hc hwrong
  | some e => simp [Login_mem, hu, hp, hu', hp', habsent, hstored, hc]

/-- C5 amended, at `Login("nobody", "wrong")` and `Login("alice", "wrong")` on
`aliceStore`. -/
theorem C5_login_failures_indistinguishable_witness :
    ("nobody" ≠ "" ∧ "wrong" ≠ "" ∧ "alice" ≠ "" ∧ aliceStore.users "nobody" = none) ∧
    (AuthService.Login mem testBcrypt "t1" aliceStore ⟨"nobody", "wrong"⟩).resp =
      (AuthService.Login mem testBcrypt "t2" aliceStore ⟨"alice", "wrong"⟩).resp ∧
    (AuthService.Login mem testBcrypt "t1" aliceStore ⟨"nobody", "wrong"⟩).resp =
      { Token := "", UserId := "", Success := false,
        Message := "invalid username or password" } ∧
    (AuthService.Login mem testBcrypt "t1" aliceStore ⟨"nobody", "wrong"⟩).err = none ∧
    (AuthService.Login mem testBcrypt "t2" aliceStore ⟨"alice", "wrong"⟩).err = none :=
  ⟨by decide,
    C5_login_failures_indistinguishable testBcrypt aliceStore aliceStore "t1" "t2" "nobody"
      "alice" "wrong" "wrong" ⟨"u1", "alice", "a@x.com", "$2a$pw1"⟩
      (by decide) (by decide) (by decide) (by decide) (by decide) (by decide) (by decide)⟩

/-- C6. For every store and whatever the other fields are: `Register` with an
empty username, email or password, `Login` with an empty username or password
and `Logout` with an empty token each return success=false with a nil error
and leave the store exactly as it was. -/
theorem C6_empty_field_rejected (b : Bcrypt) (s : InMemoryStorage) (salt uuid : String)
    (reg : RegisterRequest) (login : LoginRequest) (logout : LogoutRequest) :
    ((reg.Username = "" ∨ reg.Email = "" ∨ reg.Password = "") →
      (AuthService.Register mem b salt uuid s reg).resp.Success = false ∧
      (AuthService.Register mem b salt uuid s reg).err = none ∧
      (AuthService.Register mem b salt uuid s reg).store = s) ∧
    ((login.Username = "" ∨ login.Password = "") →
      (AuthService.Login mem b uuid s login).resp.Success = false ∧
      (AuthService.Login mem b uuid s login).err = none ∧
      (AuthService.Login mem b uuid s login).store = s) ∧
    (logout.Token = "" →
      (AuthService.Logout mem s logout).resp.Success = false ∧
      (AuthService.Logout mem s logout).err = none ∧
      (AuthService.Logout mem s logout).store = s) := by
  refine ⟨fun h => ?_, fun h => ?_, fun h => ?_⟩
  · simp [Register_mem, h]
  · simp [Login_mem, h]
  · simp [Logout_mem, h]

/-- C6 on `aliceStore`: `Register` without email, `Login` without password and
`Logout` without token. -/
theorem C6_empty_field_rejected_witness :
    (AuthService.Register mem testBcrypt "salt" "u2" aliceStore
        ⟨"bob", "", "pw2"⟩).store = aliceStore ∧
    (AuthService.Login mem testBcrypt "t1" aliceStore ⟨"alice", ""⟩).store = aliceStore ∧
    (AuthService.Logout mem aliceStore ⟨""⟩).store = aliceStore :=
  ⟨((C6_empty_field_rejected testBcrypt aliceStore "salt" "u2" ⟨"bob", "", "pw2"⟩
      ⟨"alice", ""⟩ ⟨""⟩).1 (by decide)).2.2,
    ((C6_empty_field_rejected testBcrypt aliceStore "salt" "t1" ⟨"bob", "", "pw2"⟩
      ⟨"alice", ""⟩ ⟨""⟩).2.1 (by decide)).2.2,
    ((C6_empty_field_rejected testBcrypt aliceStore "salt" "t1" ⟨"bob", "", "pw2"⟩
      ⟨"alice", ""⟩ ⟨""⟩).2.2 (by decide)).2.2⟩

/-- C7, as stated, fails twice. On `aliceStore`, which holds `alice`,
`Register("alice", "b@x.com", longPassword)` with a non-empty email and
password answers "failed to hash password" with a non-nil error, because the
password is hashed before the store is asked. On `anonStore`, which holds a
user under the empty username, `Register("", "b@x.com", "pw2")` answers
"username, email, and password are required". -/
theorem C7_counterexample :
    (aliceStore.users "alice" = some ⟨"u1", "alice", "a@x.com", "$2a$pw1"⟩ ∧
      longPassword ≠ "" ∧
      (AuthService.Register mem testBcrypt "salt" "u2" aliceStore
        ⟨"alice", "b@x.com", longPassword⟩).resp.Message = "failed to hash password" ∧
      (AuthService.Register mem testBcrypt "salt" "u2" aliceStore
        ⟨"alice", "b@x.com", longPassword⟩).resp ≠
        { UserId := "", Success := false, Message := "user already exists" } ∧
      (AuthService.Register mem testBcrypt "salt" "u2" aliceStore
        ⟨"alice", "b@x.com", longPassword⟩).err ≠ none) ∧
    (anonStore.users "" = some ⟨"u0", "", "n@x.com", "$2a$pw0"⟩ ∧
      (AuthService.Register mem testBcrypt "salt" "u2" anonStore
        ⟨"", "b@x.com", "pw2"⟩).resp.Message =
        "username, email, and password are required" ∧
      (AuthService.Register mem testBcrypt "salt" "u2" anonStore
        ⟨"", "b@x.com", "pw2"⟩).resp ≠
        { UserId := "", Success := false, Message := "user already exists" }) := by
  decide

/-- C7, amended. For every store that holds a user under a non-empty username
`U` and every non-empty email and password whose hashing succeeds,
`Register(U, email, password)` returns success=false with the message
"user already exists", an empty userId and a nil error, and leaves the store
unchanged, the record stored for `U` included. -/
theorem C7_duplicate_username_rejected (b : Bcrypt) (s : InMemoryStorage)
    (salt uuid username email password h : String) (r : User)
    (hstored : s.users username = some r)
    (hu : username ≠ "") (he : email ≠ "") (hp : password ≠ "")
    (hhash : b.GenerateFromPassword salt password DefaultCost = Except.ok h) :
    (AuthService.Register mem b salt uuid s ⟨username, email, password⟩).resp =
      { UserId := "", Success := false, Message := "user already exists" } ∧
    (AuthService.Register mem b salt uuid s ⟨username, email, password⟩).err = none ∧
    (AuthService.Register mem b salt uuid s ⟨username, email, password⟩).store = s ∧
    (AuthService.Register mem b salt uuid s ⟨username, email, password⟩).store.users username
      = some r := by
  simp [Register_mem, hu, he, hp, hhash, hstored]

/-- C7 amended, at `Register("alice", "other@x.com", "pw2")` on `aliceStore`. -/
theorem C7_duplicate_username_rejected_witness :
    aliceStore.users "alice" = some ⟨"u1", "alice", "a@x.com", "$2a$pw1"⟩ ∧
    testBcrypt.GenerateFromPassword "salt" "pw2" DefaultCost = Except.ok "$2a$pw2" ∧
    (AuthService.Register mem testBcrypt "salt" "u2" aliceStore
      ⟨"alice", "other@x.com", "pw2"⟩).resp =
      { UserId := "", Success := false, Message := "user already exists" } ∧
    (AuthService.Register mem testBcrypt "salt" "u2" aliceStore
      ⟨"alice", "other@x.com", "pw2"⟩).err = none ∧
    (AuthService.Register mem testBcrypt "salt" "u2" aliceStore
      ⟨"alice", "other@x.com", "pw2"⟩).store = aliceStore ∧
    (AuthService.Register mem testBcrypt "salt" "u2" aliceStore
      ⟨"alice", "other@x.com", "pw2"⟩).store.users "alice" =
      some ⟨"u1", "alice", "a@x.com", "$2a$pw1"⟩ :=
  ⟨by decide, rfl,
    C7_duplicate_username_rejected testBcrypt aliceStore "salt" "u2" "alice" "other@x.com"
      "pw2" "$2a$pw2" ⟨"u1", "alice", "a@x.com", "$2a$pw1"⟩
      (by decide) (by decide) (by decide) (by decide) rfl⟩

/-- C8. For every store and every request with non-empty username, email and
password whose username is not stored, when hashing succeeds with hash `h`:
`Register` returns success=true, a nil error and the generated id as userId;
in the store it leaves, `GetUserByUsername(username)` and
`GetUserByID(userId)` both return the record with that id, the username and
email as given and `h` as password hash; the token index is unchanged. Nothing
is assumed of the email beyond being non-empty. -/
theorem C8_register_creates_user (b : Bcrypt) (s : InMemoryStorage)
    (salt uuid username email password h : String)
    (hu : username ≠ "") (he : email ≠ "") (hp : password ≠ "")
    (hfree : s.users username = none)
    (hhash : b.GenerateFromPassword salt password DefaultCost = Except.ok h) :
    (AuthService.Register mem b salt uuid s ⟨username, email, password⟩).resp.Success = true ∧
    (AuthService.Register mem b salt uuid s ⟨username, email, password⟩).err = none ∧
    (AuthService.Register mem b salt uuid s ⟨username, email, password⟩).resp.UserId = uuid ∧
    (AuthService.Register mem b salt uuid s ⟨username, email, password⟩).store.GetUserByUsername
      username = Except.ok ⟨uuid, username, email, h⟩ ∧
    (AuthService.Register mem b salt uuid s ⟨username, email, password⟩).store.GetUserByID
      (AuthService.Register mem b salt uuid s ⟨username, email, password⟩).resp.UserId =
        Except.ok ⟨uuid, username, email, h⟩ ∧
    (AuthService.Register mem b salt uuid s ⟨username, email, password⟩).store.tokens =
      s.tokens := by
  simp [Register_mem, hu, he, hp, hhash, hfree, InMemoryStorage.GetUserByUsername,
    InMemoryStorage.GetUserByID]

/-- C8 at `Register("bob", "a@x.com", "pw2")` on `aliceStore`, where alice
already uses that email. -/
theorem C8_register_creates_user_witness :
    (aliceStore.users "bob" = none ∧
      aliceStore.users "alice" = some ⟨"u1", "alice", "a@x.com", "$2a$pw1"⟩) ∧
    (AuthService.Register mem testBcrypt "salt" "u2" aliceStore
      ⟨"bob", "a@x.com", "pw2"⟩).resp.Success = true ∧
    (AuthService.Register mem testBcrypt "salt" "u2" aliceStore
      ⟨"bob", "a@x.com", "pw2"⟩).err = none ∧
    (AuthService.Register mem testBcrypt "salt" "u2" aliceStore
      ⟨"bob", "a@x.com", "pw2"⟩).resp.UserId = "u2" ∧
    (AuthService.Register mem testBcrypt "salt" "u2" aliceStore
      ⟨"bob", "a@x.com", "pw2"⟩).store.GetUserByUsername "bob" =
      Except.ok ⟨"u2", "bob", "a@x.com", "$2a$pw2"⟩ ∧
    (AuthService.Register mem testBcrypt "salt" "u2" aliceStore
      ⟨"bob", "a@x.com", "pw2"⟩).store.GetUserByID
      (AuthService.Register mem testBcrypt "salt" "u2" aliceStore
        ⟨"bob", "a@x.com", "pw2"⟩).resp.UserId =
      Except.ok ⟨"u2", "bob", "a@x.com", "$2a$pw2"⟩ ∧
    (AuthService.Register mem testBcrypt "salt" "u2" aliceStore
      ⟨"bob", "a@x.com", "pw2"⟩).store.tokens = aliceStore.tokens :=
  ⟨by decide,
    C8_register_creates_user testBcrypt aliceStore "salt" "u2" "bob" "a@x.com" "pw2" "$2a$pw2"
      (by decide) (by decide) (by decide) (by decide) rfl⟩

/-- C9. For every store and token, the workflow's `ValidateToken` returns a
nil error and leaves the store as it was. It reports valid=true exactly when
the token is non-empty, the token index binds it to an id and the id index
holds a user for that id; then userId and username are the `ID` and `Username`
of that record. In every other case the response is valid=false with empty
userId and username. -/
theorem C9_validate_token_outcome (s : InMemoryStorage) (token : String) :
    (AuthService.ValidateToken mem s ⟨token⟩).err = none ∧
    (AuthService.ValidateToken mem s ⟨token⟩).store = s ∧
    ((AuthService.ValidateToken mem s ⟨token⟩).resp.Valid = true ↔
      token ≠ "" ∧ ∃ id user, s.tokens token = some id ∧ s.userIDs id = some user) ∧
    (∀ id user, token ≠ "" → s.tokens token = some id → s.userIDs id = some user →
      (AuthService.ValidateToken mem s ⟨token⟩).resp =
        { Valid := true, UserId := user.ID, Username := user.Username }) ∧
    (¬(token ≠ "" ∧ ∃ id user, s.tokens token = some id ∧ s.userIDs id = some user) →
      (AuthService.ValidateToken mem s ⟨token⟩).resp =
        { Valid := false, UserId := "", Username := "" }) := by
  rw [ValidateToken_mem]
  by_cases ht : token = ""
  · simp [ht]
  · cases h1 : s.tokens token with
    | none => simp [ht, h1]
    | some id =>
      cases h2 : s.userIDs id with
      | none =>
        simp only [ht, h1, h2]
        refine ⟨rfl, rfl, ?_, ?_, ?_⟩
        · simp
          intro _ u e
          rw [h2] at e
          cases e
        · intro i u _ e hu
          cases e
          rw [h2] at hu
          cases hu
        · intro _
          rfl
      | some user =>
        simp only [ht, h1, h2]
        refine ⟨rfl, rfl, ?_, ?_, ?_⟩
        · simp
          exact ⟨ht, user, h2⟩
        · intro i u _ e hu
          cases e
          rw [h2] at hu
          cases hu
          rfl
        · intro hn
          exact absurd ⟨fun h => ht h, id, user, rfl, h2⟩ hn

/-- C10. Over the in-memory store, for every store and every request: `Login`,
`ValidateToken` and `Logout` return a nil error; `Register` returns a non-nil
error exactly when it gets to hash the password (no field is empty) and the
hashing fails, and then reports success=false and leaves the store unchanged.
An empty field, a username that is already stored (the hashing having
succeeded), a username that is not stored or a password the hash does not
verify, and an empty or unbound token are answered with success=false (or
valid=false); by the first two parts the error is nil in each of them. -/
theorem C10_no_transport_error_for_business_outcomes (b : Bcrypt) (s : InMemoryStorage)
    (salt uuid : String) (reg : RegisterRequest) (login : LoginRequest)
    (validate : ValidateTokenRequest) (logout : LogoutRequest) :
    ((AuthService.Login mem b uuid s login).err = none ∧
      (AuthService.ValidateToken mem s validate).err = none ∧
      (AuthService.Logout mem s logout).err = none) ∧
    ((AuthService.Register mem b salt uuid s reg).err ≠ none ↔
      ¬(reg.Username = "" ∨ reg.Email = "" ∨ reg.Password = "") ∧
        ∃ e, b.GenerateFromPassword salt reg.Password DefaultCost = Except.error e) ∧
    ((AuthService.Register mem b salt uuid s reg).err ≠ none →
      (AuthService.Register mem b salt uuid s reg).resp.Success = false ∧
      (AuthService.Register mem b salt uuid s reg).store = s) ∧
    ((reg.Username = "" ∨ reg.Email = "" ∨ reg.Password = "") →
      (AuthService.Register mem b salt uuid s reg).resp.Success = false ∧
      (AuthService.Register mem b salt uuid s reg).err = none) ∧
    ((login.Username = "" ∨ login.Password = "") →
      (AuthService.Login mem b uuid s login).resp.Success = false) ∧
    (logout.Token = "" → (AuthService.Logout mem s logout).resp.Success = false) ∧
    (∀ h r, ¬(reg.Username = "" ∨ reg.Email = "" ∨ reg.Password = "") →
      b.GenerateFromPassword salt reg.Password DefaultCost = Except.ok h →
      s.users reg.Username = some r →
      (AuthService.Register mem b salt uuid s reg).resp.Success = false ∧
      (AuthService.Register mem b salt uuid s reg).err = none) ∧
    (s.users login.Username = none →
      (AuthService.Login mem b uuid s login).resp.Success = false) ∧
    (∀ r, s.users login.Username = some r →
      b.CompareHashAndPassword r.PasswordHash login.Password ≠ none →
      (AuthService.Login mem b uuid s login).resp.Success = false) ∧
    ((validate.Token = "" ∨ s.tokens validate.Token = none) →
      (AuthService.ValidateToken mem s validate).resp.Valid = false) := by
  refine ⟨⟨?_, ?_, ?_⟩, ?_, ?_, ?_, ?_, ?_, ?_, ?_, ?_, ?_⟩
  · rw [Login_mem]
    split
    · rfl
    · split
      · rfl
      · split <;> rfl
  · rw [ValidateToken_mem]
    split
    · rfl
    · split
      · rfl
      · split <;> rfl
  · rw [Logout_mem]
    split <;> rfl
  · rw [Register_mem]
    by_cases hv : reg.Username = "" ∨ reg.Email = "" ∨ reg.Password = ""
    · simp [hv]
    · cases hg : b.GenerateFromPassword salt reg.Password DefaultCost with
      | error e => simp [hv]
      | ok h => cases hu : s.users reg.Username <;> simp [hv]
  · rw [Register_mem]
    by_cases hv : reg.Username = "" ∨ reg.Email = "" ∨ reg.Password = ""
    · simp [hv]
    · cases hg : b.GenerateFromPassword salt reg.Password DefaultCost with
      | error e => simp [hv]
      | ok h => cases hu : s.users reg.Username <;> simp [hv]
  · intro hv
    simp [Register_mem, hv]
  · intro hv
    simp [Login_mem, hv]
  · intro hv
    simp [Logout_mem, hv]
  · intro h r hv hg hu
    simp [Register_mem, hv, hg, hu]
  · intro hu
    rw [Login_mem]
    split
    · rfl
    · simp [hu]
  · intro r hu hc
    rw [Login_mem]
    split
    · rfl
    · cases hc2 : b.CompareHashAndPassword r.PasswordHash login.Password with
      | none => exact absurd hc2 hc
      | some e => simp [hu, hc2]
  · intro hv
    rw [ValidateToken_mem]
    split
    · rfl
    · rename_i hne
      rcases hv with hv | hv
      · exact absurd hv hne
      · simp [hv]

/-- C11, as stated, fails: the storage call `CreateUser` compares usernames
only, so from the empty store `CreateUser` of a record `alice` with id `u1`
followed by `CreateUser` of a record `bob` with the same id `u1` both succeed;
afterwards the username index maps `alice` to her record while the id index
maps her id `u1` to the record of `bob`. -/
theorem C11_counterexample :
    (NewInMemoryStorage.run
      [Op.CreateUser ⟨"u1", "alice", "a@x.com", "h1"⟩,
        Op.CreateUser ⟨"u1", "bob", "b@x.com", "h2"⟩]).users "alice" =
      some ⟨"u1", "alice", "a@x.com", "h1"⟩ ∧
    (NewInMemoryStorage.run
      [Op.CreateUser ⟨"u1", "alice", "a@x.com", "h1"⟩,
        Op.CreateUser ⟨"u1", "bob", "b@x.com", "h2"⟩]).userIDs "u1" =
      some ⟨"u1", "bob", "b@x.com", "h2"⟩ ∧
    (NewInMemoryStorage.run
      [Op.CreateUser ⟨"u1", "alice", "a@x.com", "h1"⟩,
        Op.CreateUser ⟨"u1", "bob", "b@x.com", "h2"⟩]).userIDs "u1" ≠
      some ⟨"u1", "alice", "a@x.com", "h1"⟩ := by
  decide

/-- C11, amended. In every store reached from the empty store by a sequence of
storage calls whose successful `CreateUser` calls carry pairwise distinct ids:
whenever the username index maps `u` to `r` then `r.Username = u` and the id
index maps `r.ID` to `r`, and whenever the id index maps `i` to `r` then
`r.ID = i` and the username index maps `r.Username` to `r`. -/
theorem C11_indexes_agree (ops : List Op)
    (hids : ((NewInMemoryStorage.created ops).map User.ID).Nodup) :
    (∀ u r, (NewInMemoryStorage.run ops).users u = some r →
      r.Username = u ∧ (NewInMemoryStorage.run ops).userIDs r.ID = some r) ∧
    (∀ i r, (NewInMemoryStorage.run ops).userIDs i = some r →
      r.ID = i ∧ (NewInMemoryStorage.run ops).users r.Username = some r) :=
  storage.indexes_agree_run ops NewInMemoryStorage
    ⟨fun u r h => by simp [NewInMemoryStorage] at h,
      fun i r h => by simp [NewInMemoryStorage] at h⟩
    hids (fun r _ => rfl)

/-- C11 amended, on a run with two successful `CreateUser` calls, a rejected
one, a `StoreToken` and a `RevokeToken`. -/
theorem C11_indexes_agree_witness :
    ((NewInMemoryStorage.created
      [Op.CreateUser ⟨"u1", "alice", "a@x.com", "h1"⟩, Op.StoreToken "u1" "t1",
        Op.CreateUser ⟨"u2", "bob", "b@x.com", "h2"⟩,
        Op.CreateUser ⟨"u2", "alice", "c@x.com", "h3"⟩, Op.RevokeToken "t1"]).map
      User.ID).Nodup ∧
    ((NewInMemoryStorage.run
      [Op.CreateUser ⟨"u1", "alice", "a@x.com", "h1"⟩, Op.StoreToken "u1" "t1",
        Op.CreateUser ⟨"u2", "bob", "b@x.com", "h2"⟩,
        Op.CreateUser ⟨"u2", "alice", "c@x.com", "h3"⟩, Op.RevokeToken "t1"]).users "alice" =
      some ⟨"u1", "alice", "a@x.com", "h1"⟩ →
      (NewInMemoryStorage.run
        [Op.CreateUser ⟨"u1", "alice", "a@x.com", "h1"⟩, Op.StoreToken "u1" "t1",
          Op.CreateUser ⟨"u2", "bob", "b@x.com", "h2"⟩,
          Op.CreateUser ⟨"u2", "alice", "c@x.com", "h3"⟩, Op.RevokeToken "t1"]).userIDs "u1" =
        some ⟨"u1", "alice", "a@x.com", "h1"⟩) :=
  ⟨by decide, fun h =>
    ((C11_indexes_agree
      [Op.CreateUser ⟨"u1", "alice", "a@x.com", "h1"⟩, Op.StoreToken "u1" "t1",
        Op.CreateUser ⟨"u2", "bob", "b@x.com", "h2"⟩,
        Op.CreateUser ⟨"u2", "alice", "c@x.com", "h3"⟩, Op.RevokeToken "t1"]
      (by decide)).1 "alice" ⟨"u1", "alice", "a@x.com", "h1"⟩ h).2⟩

/-- C12. For every store, `GetUserByUsername(name)` fails with
`ErrUserNotFound` exactly when the username index has no entry for `name` and
otherwise returns the stored record; `GetUserByID(id)` does the same over the
id index; both leave the store as it is; and right after a successful
`CreateUser(u)` both `GetUserByUsername(u.Username)` and `GetUserByID(u.ID)`
return `u`. -/
theorem C12_lookups (s : InMemoryStorage) (name id : String) (u : User) :
    (s.GetUserByUsername name = Except.error Error.ErrUserNotFound ↔ s.users name = none) ∧
    (∀ r, s.users name = some r → s.GetUserByUsername name = Except.ok r) ∧
    (s.GetUserByID id = Except.error Error.ErrUserNotFound ↔ s.userIDs id = none) ∧
    (∀ r, s.userIDs id = some r → s.GetUserByID id = Except.ok r) ∧
    (InMemoryStorage.asStorage.GetUserByUsername s name).2 = s ∧
    (InMemoryStorage.asStorage.GetUserByID s id).2 = s ∧
    ((s.CreateUser u).1 = none →
      (s.CreateUser u).2.GetUserByUsername u.Username = Except.ok u ∧
      (s.CreateUser u).2.GetUserByID u.ID = Except.ok u) := by
  refine ⟨?_, ?_, ?_, ?_, rfl, rfl, ?_⟩
  · unfold InMemoryStorage.GetUserByUsername
    cases h : s.users name <;> simp
  · intro r h
    simp [InMemoryStorage.GetUserByUsername, h]
  · unfold InMemoryStorage.GetUserByID
    cases h : s.userIDs id <;> simp
  · intro r h
    simp [InMemoryStorage.GetUserByID, h]
  · unfold InMemoryStorage.CreateUser
    cases h : s.users u.Username <;>
      simp [h, InMemoryStorage.GetUserByUsername, InMemoryStorage.GetUserByID]

/-- C13. For every store, user id and token, `StoreToken(userID, token)`
returns a nil error, whatever the id index holds; afterwards the storage call
`ValidateToken(token)` returns `userID`, whatever the token was bound to
before; every other token keeps its binding and both user indexes are
unchanged; and in every store the storage call `ValidateToken` fails with
`ErrInvalidToken` exactly when the token index has no entry for the token,
returns the bound id otherwise, and leaves the store as it is. -/
theorem C13_store_token (s : InMemoryStorage) (userID token other : String) :
    (s.StoreToken userID token).1 = none ∧
    (s.StoreToken userID token).2.ValidateToken token = Except.ok userID ∧
    (other ≠ token →
      (s.StoreToken userID token).2.tokens other = s.tokens other ∧
      (s.StoreToken userID token).2.ValidateToken other = s.ValidateToken other) ∧
    (s.StoreToken userID token).2.users = s.users ∧
    (s.StoreToken userID token).2.userIDs = s.userIDs ∧
    (s.ValidateToken token = Except.error Error.ErrInvalidToken ↔ s.tokens token = none) ∧
    (∀ id, s.tokens token = some id → s.ValidateToken token = Except.ok id) ∧
    (InMemoryStorage.asStorage.ValidateToken s token).2 = s := by
  refine ⟨rfl, ?_, ?_, rfl, rfl, ?_, ?_, rfl⟩
  · simp [InMemoryStorage.StoreToken, InMemoryStorage.ValidateToken]
  · intro h
    simp [InMemoryStorage.StoreToken, InMemoryStorage.ValidateToken, Function.update_noteq h]
  · unfold InMemoryStorage.ValidateToken
    cases h : s.tokens token <;> simp
  · intro id h
    simp [InMemoryStorage.ValidateToken, h]

/-- C14. For every store and token, `RevokeToken(token)` returns a nil error;
afterwards the storage call `ValidateToken(token)` fails with
`ErrInvalidToken`; revoking a second time leaves the store the first
revocation left; revoking a token that is not bound leaves the store
unchanged; every other token keeps its binding and both user indexes are
unchanged. -/
theorem C14_revoke_token (s : InMemoryStorage) (token other : String) :
    (s.RevokeToken token).1 = none ∧
    (s.RevokeToken token).2.ValidateToken token = Except.error Error.ErrInvalidToken ∧
    ((s.RevokeToken token).2.RevokeToken token).2 = (s.RevokeToken token).2 ∧
    (s.tokens token = none → (s.RevokeToken token).2 = s) ∧
    (other ≠ token →
      (s.RevokeToken token).2.tokens other = s.tokens other ∧
      (s.RevokeToken token).2.ValidateToken other = s.ValidateToken other) ∧
    (s.RevokeToken token).2.users = s.users ∧
    (s.RevokeToken token).2.userIDs = s.userIDs := by
  refine ⟨rfl, ?_, ?_, ?_, ?_, rfl, rfl⟩
  · simp [InMemoryStorage.RevokeToken, InMemoryStorage.ValidateToken]
  · simp [InMemoryStorage.RevokeToken]
  · intro h
    cases s
    simp only [InMemoryStorage.RevokeToken, InMemoryStorage.mk.injEq, true_and]
    simp only at h
    rw [← h]
    exact Function.update_eq_self _ _
  · intro h
    simp [InMemoryStorage.RevokeToken, InMemoryStorage.ValidateToken, Function.update_noteq h]

/-- C15. For every store, a successful `Login` changes nothing but the token
index, and that only by binding the returned token to the returned userId.
When the token was not in the token index, every token bound before keeps
its binding, and every token the workflow's `ValidateToken` accepted before
gets the same response afterwards. After two successive successful Logins of
one username with distinct tokens, both tokens are bound to the userId both
Logins returned, the response of `ValidateToken` for the first token is what
it was after the first Login, and when the id index holds the user's record
under its id and the tokens are non-empty the workflow's `ValidateToken`
accepts both tokens with that user's id and username. -/
theorem C15_login_keeps_tokens (b : Bcrypt) (s : InMemoryStorage)
    (tok tok2 username pw pw2 : String) :
    ((AuthService.Login mem b tok s ⟨username, pw⟩).resp.Success = true →
      (AuthService.Login mem b tok s ⟨username, pw⟩).store.users = s.users ∧
      (AuthService.Login mem b tok s ⟨username, pw⟩).store.userIDs = s.userIDs ∧
      (AuthService.Login mem b tok s ⟨username, pw⟩).store.tokens =
        Function.update s.tokens (AuthService.Login mem b tok s ⟨username, pw⟩).resp.Token
          (some (AuthService.Login mem b tok s ⟨username, pw⟩).resp.UserId)) ∧
    ((AuthService.Login mem b tok s ⟨username, pw⟩).resp.Success = true →
      s.tokens tok = none →
      ∀ t : String,
        (∀ id, s.tokens t = some id →
          (AuthService.Login mem b tok s ⟨username, pw⟩).store.tokens t = some id) ∧
        ((AuthService.ValidateToken mem s ⟨t⟩).resp.Valid = true →
          (AuthService.ValidateToken mem
            (AuthService.Login mem b tok s ⟨username, pw⟩).store ⟨t⟩).resp =
            (AuthService.ValidateToken mem s ⟨t⟩).resp)) ∧
    ((AuthService.Login mem b tok s ⟨username, pw⟩).resp.Success = true →
      (AuthService.Login mem b tok2
        (AuthService.Login mem b tok s ⟨username, pw⟩).store ⟨username, pw2⟩).resp.Success
        = true →
      tok ≠ tok2 →
      (AuthService.Login mem b tok2
        (AuthService.Login mem b tok s ⟨username, pw⟩).store ⟨username, pw2⟩).resp.UserId =
        (AuthService.Login mem b tok s ⟨username, pw⟩).resp.UserId ∧
      (AuthService.Login mem b tok2
        (AuthService.Login mem b tok s ⟨username, pw⟩).store ⟨username, pw2⟩).store.ValidateToken
        tok = Except.ok (AuthService.Login mem b tok s ⟨username, pw⟩).resp.UserId ∧
      (AuthService.Login mem b tok2
        (AuthService.Login mem b tok s ⟨username, pw⟩).store ⟨username, pw2⟩).store.ValidateToken
        tok2 = Except.ok (AuthService.Login mem b tok s ⟨username, pw⟩).resp.UserId ∧
      (AuthService.ValidateToken mem
        (AuthService.Login mem b tok2
          (AuthService.Login mem b tok s ⟨username, pw⟩).store ⟨username, pw2⟩).store
        ⟨tok⟩).resp =
        (AuthService.ValidateToken mem
          (AuthService.Login mem b tok s ⟨username, pw⟩).store ⟨tok⟩).resp ∧
      (∀ r, s.users username = some r → s.userIDs r.ID = some r → tok ≠ "" → tok2 ≠ "" →
        (AuthService.ValidateToken mem
          (AuthService.Login mem b tok2
            (AuthService.Login mem b tok s ⟨username, pw⟩).store ⟨username, pw2⟩).store
          ⟨tok⟩).resp = { Valid := true, UserId := r.ID, Username := r.Username } ∧
        (AuthService.ValidateToken mem
          (AuthService.Login mem b tok2
            (AuthService.Login mem b tok s ⟨username, pw⟩).store ⟨username, pw2⟩).store
          ⟨tok2⟩).resp = { Valid := true, UserId := r.ID, Username := r.Username })) := by
  -- a successful Login, spelled out
  have key : ∀ (s0 : InMemoryStorage) (t0 p0 : String),
      (AuthService.Login mem b t0 s0 ⟨username, p0⟩).resp.Success = true →
      ∃ r, s0.users username = some r ∧
        AuthService.Login mem b t0 s0 ⟨username, p0⟩ =
          { resp := { Token := t0, UserId := r.ID, Success := true,
                      Message := "login successful" }
            err := none
            store := { s0 with tokens := Function.update s0.tokens t0 (some r.ID) } } := by
    intro s0 t0 p0 h
    rw [Login_mem] at h ⊢
    split at h
    · simp at h
    · rename_i hv
      simp only [hv, if_false]
      cases hu : s0.users username with
      | none => simp [hu] at h
      | some r =>
        simp only [hu] at h ⊢
        cases hc : b.CompareHashAndPassword r.PasswordHash p0 with
        | some e => simp [hc] at h
        | none => exact ⟨r, rfl, rfl⟩
  refine ⟨?_, ?_, ?_⟩
  · intro h
    obtain ⟨r, _, e⟩ := key s tok pw h
    rw [e]
    exact ⟨rfl, rfl, rfl⟩
  · intro h hnew t
    obtain ⟨r, _, e⟩ := key s tok pw h
    rw [e]
    have hne : ∀ id, s.tokens t = some id → t ≠ tok := by
      intro id hid ht
      rw [ht, hnew] at hid
      cases hid
    constructor
    · intro id hid
      simp [Function.update_noteq (hne id hid), hid]
    · intro hv
      rw [ValidateToken_mem] at hv
      by_cases ht : t = ""
      · simp [ht] at hv
      · cases h1 : s.tokens t with
        | none => simp [ht, h1] at hv
        | some id =>
          exact ValidateToken_resp_congr s _ t (Function.update_noteq (hne id h1) _ _) rfl
  · intro h h2 hne
    obtain ⟨r, hu, e⟩ := key s tok pw h
    rw [e] at h2 ⊢
    obtain ⟨r2, hu2, e2⟩ := key _ tok2 pw2 h2
    rw [e2]
    simp only at hu2
    rw [hu] at hu2
    cases hu2
    refine ⟨rfl, ?_, ?_, ?_, ?_⟩
    · simp [InMemoryStorage.ValidateToken, Function.update_noteq hne]
    · simp [InMemoryStorage.ValidateToken]
    · exact ValidateToken_resp_congr _ _ tok (Function.update_noteq hne _ _) rfl
    · intro r' hr' hid ht1 ht2
      rw [hu] at hr'
      cases hr'
      simp [ValidateToken_mem, ht1, ht2, Function.update_noteq hne, hid]

/-- C15 on `aliceStore`: alice logs in twice, with tokens `t1` and `t2`. -/
theorem C15_login_keeps_tokens_witness :
    (AuthService.Login mem testBcrypt "t1" aliceStore ⟨"alice", "pw1"⟩).resp.Success = true ∧
    (AuthService.Login mem testBcrypt "t2"
      (AuthService.Login mem testBcrypt "t1" aliceStore ⟨"alice", "pw1"⟩).store
      ⟨"alice", "pw1"⟩).resp.Success = true ∧
    (AuthService.ValidateToken mem
      (AuthService.Login mem testBcrypt "t2"
        (AuthService.Login mem testBcrypt "t1" aliceStore ⟨"alice", "pw1"⟩).store
        ⟨"alice", "pw1"⟩).store ⟨"t1"⟩).resp =
      { Valid := true, UserId := "u1", Username := "alice" } ∧
    (AuthService.ValidateToken mem
      (AuthService.Login mem testBcrypt "t2"
        (AuthService.Login mem testBcrypt "t1" aliceStore ⟨"alice", "pw1"⟩).store
        ⟨"alice", "pw1"⟩).store ⟨"t2"⟩).resp =
      { Valid := true, UserId := "u1", Username := "alice" } :=
  ⟨by decide, by decide,
    ((C15_login_keeps_tokens testBcrypt aliceStore "t1" "t2" "alice" "pw1" "pw1").2.2
      (by decide) (by decide) (by decide)).2.2.2.2 ⟨"u1", "alice", "a@x.com", "$2a$pw1"⟩
      (by decide) (by decide) (by decide) (by decide)⟩

/-- C16. Once the storage call `CreateUser(u)` has succeeded, after any
sequence of later storage calls `GetUserByUsername(u.Username)` returns `u`,
and `GetUserByID(u.ID)` returns `u` when no later successful `CreateUser`
carried the id of `u`; `StoreToken` and `RevokeToken` change neither user
index. -/
theorem C16_users_persist (s : InMemoryStorage) (u : User) (ops : List Op)
    (hok : (s.CreateUser u).1 = none) :
    ((s.CreateUser u).2.run ops).GetUserByUsername u.Username = Except.ok u ∧
    (u.ID ∉ ((s.CreateUser u).2.created ops).map User.ID →
      ((s.CreateUser u).2.run ops).GetUserByID u.ID = Except.ok u) ∧
    (∀ (s1 : InMemoryStorage) (userID token : String),
      (s1.StoreToken userID token).2.users = s1.users ∧
      (s1.StoreToken userID token).2.userIDs = s1.userIDs ∧
      (s1.RevokeToken token).2.users = s1.users ∧
      (s1.RevokeToken token).2.userIDs = s1.userIDs) := by
  have hcu : (s.CreateUser u).2.users u.Username = some u ∧
      (s.CreateUser u).2.userIDs u.ID = some u := by
    unfold InMemoryStorage.CreateUser at hok ⊢
    cases h : s.users u.Username with
    | some r0 => simp [h] at hok
    | none => simp
  refine ⟨?_, ?_, fun _ _ _ => ⟨rfl, rfl, rfl, rfl⟩⟩
  · simp [InMemoryStorage.GetUserByUsername, storage.run_users ops _ _ _ hcu.1]
  · intro hid
    have := storage.run_userIDs ops (s.CreateUser u).2 u.ID (fun r hr e =>
      hid (e ▸ List.mem_map_of_mem _ hr))
    simp [InMemoryStorage.GetUserByID, this, hcu.2]

/-- C16 after `CreateUser` of alice on the empty store, followed by a token
being stored, a second user, a rejected duplicate and a revocation. -/
theorem C16_users_persist_witness :
    (NewInMemoryStorage.CreateUser ⟨"u1", "alice", "a@x.com", "h1"⟩).1 = none ∧
    ((NewInMemoryStorage.CreateUser ⟨"u1", "alice", "a@x.com", "h1"⟩).2.run
      [Op.StoreToken "u1" "t1", Op.CreateUser ⟨"u2", "bob", "b@x.com", "h2"⟩,
        Op.CreateUser ⟨"u3", "alice", "c@x.com", "h3"⟩,
        Op.RevokeToken "t1"]).GetUserByUsername "alice" =
      Except.ok ⟨"u1", "alice", "a@x.com", "h1"⟩ :=
  ⟨by decide,
    (C16_users_persist NewInMemoryStorage ⟨"u1", "alice", "a@x.com", "h1"⟩
      [Op.StoreToken "u1" "t1", Op.CreateUser ⟨"u2", "bob", "b@x.com", "h2"⟩,
        Op.CreateUser ⟨"u3", "alice", "c@x.com", "h3"⟩, Op.RevokeToken "t1"]
      (by decide)).1⟩

/-- C17, as stated, fails: over `checkedStorage`, an implementation of the
interface whose `RevokeToken` fails with `ErrInvalidToken` for a token that is
not bound, `Logout("t1")` on the empty store returns that failure wrapped as a
non-nil error. -/
theorem C17_counterexample :
    (checkedStorage.RevokeToken NewInMemoryStorage "t1").1 = some Error.ErrInvalidToken ∧
    (AuthService.Logout checkedStorage NewInMemoryStorage ⟨"t1"⟩).err =
      some (Error.Wrapped "failed to revoke token" Error.ErrInvalidToken) ∧
    (AuthService.Logout checkedStorage NewInMemoryStorage ⟨"t1"⟩).err ≠ none := by
  decide

/-- C17, amended. For every implementation of the interface: `Register`
answers a `CreateUser` failure `ErrUserAlreadyExists`, `Login` answers a
`GetUserByUsername` failure `ErrUserNotFound`, and `ValidateToken` answers
every failure of the storage calls `ValidateToken` and `GetUserByID`, with a
failure response and a nil error. Every other storage failure is returned
wrapped as a non-nil error: any failure of `RevokeToken` in `Logout`, any
failure of `StoreToken` in `Login`, a `CreateUser` failure other than
`ErrUserAlreadyExists` and a `GetUserByUsername` failure other than
`ErrUserNotFound`. -/
theorem C17_translated_storage_failures {σ : Type} (st : Storage σ) (b : Bcrypt) (s : σ)
    (salt uuid h : String) (reg : RegisterRequest) (login : LoginRequest)
    (validate : ValidateTokenRequest) (logout : LogoutRequest) :
    (¬(reg.Username = "" ∨ reg.Email = "" ∨ reg.Password = "") →
      b.GenerateFromPassword salt reg.Password DefaultCost = Except.ok h →
      (st.CreateUser s ⟨uuid, reg.Username, reg.Email, h⟩).1 =
        some Error.ErrUserAlreadyExists →
      (AuthService.Register st b salt uuid s reg).err = none ∧
      (AuthService.Register st b salt uuid s reg).resp =
        { UserId := "", Success := false, Message := "user already exists" }) ∧
    (¬(login.Username = "" ∨ login.Password = "") →
      (st.GetUserByUsername s login.Username).1 = Except.error Error.ErrUserNotFound →
      (AuthService.Login st b uuid s login).err = none ∧
      (AuthService.Login st b uuid s login).resp =
        { Token := "", UserId := "", Success := false,
          Message := "invalid username or password" }) ∧
    ((AuthService.ValidateToken st s validate).err = none ∧
      ((validate.Token ≠ "" ∧ ∃ e, (st.ValidateToken s validate.Token).1 = Except.error e) →
        (AuthService.ValidateToken st s validate).resp.Valid = false) ∧
      (∀ id e, validate.Token ≠ "" → (st.ValidateToken s validate.Token).1 = Except.ok id →
        (st.GetUserByID (st.ValidateToken s validate.Token).2 id).1 = Except.error e →
        (AuthService.ValidateToken st s validate).resp.Valid = false)) ∧
    (∀ e, logout.Token ≠ "" → (st.RevokeToken s logout.Token).1 = some e →
      (AuthService.Logout st s logout).err =
        some (Error.Wrapped "failed to revoke token" e)) ∧
    (∀ e user, ¬(login.Username = "" ∨ login.Password = "") →
      (st.GetUserByUsername s login.Username).1 = Except.ok user →
      b.CompareHashAndPassword user.PasswordHash login.Password = none →
      (st.StoreToken (st.GetUserByUsername s login.Username).2 user.ID uuid).1 = some e →
      (AuthService.Login st b uuid s login).err =
        some (Error.Wrapped "failed to store token" e)) ∧
    (∀ e, e ≠ Error.ErrUserAlreadyExists →
      ¬(reg.Username = "" ∨ reg.Email = "" ∨ reg.Password = "") →
      b.GenerateFromPassword salt reg.Password DefaultCost = Except.ok h →
      (st.CreateUser s ⟨uuid, reg.Username, reg.Email, h⟩).1 = some e →
      (AuthService.Register st b salt uuid s reg).err =
        some (Error.Wrapped "failed to create user" e)) ∧
    (∀ e, e ≠ Error.ErrUserNotFound →
      ¬(login.Username = "" ∨ login.Password = "") →
      (st.GetUserByUsername s login.Username).1 = Except.error e →
      (AuthService.Login st b uuid s login).err =
        some (Error.Wrapped "failed to get user" e)) := by
  refine ⟨?_, ?_, ⟨?_, ?_, ?_⟩, ?_, ?_, ?_, ?_⟩
  · intro hv hg hc
    unfold AuthService.Register
    rw [if_neg hv]
    simp only [hg]
    cases hcu : st.CreateUser s ⟨uuid, reg.Username, reg.Email, h⟩ with
    | mk e1 s1 =>
      rw [hcu] at hc
      simp only at hc
      subst hc
      simp
  · intro hv hc
    unfold AuthService.Login
    rw [if_neg hv]
    cases hg : st.GetUserByUsername s login.Username with
    | mk e1 s1 =>
      rw [hg] at hc
      simp only at hc
      subst hc
      simp
  · unfold AuthService.ValidateToken
    split
    · rfl
    · split
      · rfl
      · split <;> rfl
  · rintro ⟨hne, e, he⟩
    unfold AuthService.ValidateToken
    rw [if_neg hne]
    cases hg : st.ValidateToken s validate.Token with
    | mk e1 s1 =>
      rw [hg] at he
      simp only at he
      subst he
      rfl
  · intro id e hne hv hg
    unfold AuthService.ValidateToken
    rw [if_neg hne]
    cases hvt : st.ValidateToken s validate.Token with
    | mk e1 s1 =>
      rw [hvt] at hv hg
      simp only at hv hg
      subst hv
      simp only
      cases hgu : st.GetUserByID s1 id with
      | mk e2 s2 =>
        rw [hgu] at hg
        simp only at hg
        subst hg
        rfl
  · intro e hne he
    unfold AuthService.Logout
    rw [if_neg hne]
    cases hr : st.RevokeToken s logout.Token with
    | mk e1 s1 =>
      rw [hr] at he
      simp only at he
      subst he
      rfl
  · intro e user hv hu hc hs
    unfold AuthService.Login
    rw [if_neg hv]
    cases hg : st.GetUserByUsername s login.Username with
    | mk e1 s1 =>
      rw [hg] at hu hs
      simp only at hu hs
      subst hu
      simp only [hc]
      cases hst : st.StoreToken s1 user.ID uuid with
      | mk e2 s2 =>
        rw [hst] at hs
        simp only at hs
        subst hs
        rfl
  · intro e hne hv hg hc
    unfold AuthService.Register
    rw [if_neg hv]
    simp only [hg]
    cases hcu : st.CreateUser s ⟨uuid, reg.Username, reg.Email, h⟩ with
    | mk e1 s1 =>
      rw [hcu] at hc
      simp only at hc
      subst hc
      simp [hne]
  · intro e hne hv hc
    unfold AuthService.Login
    rw [if_neg hv]
    cases hg : st.GetUserByUsername s login.Username with
    | mk e1 s1 =>
      rw [hg] at hc
      simp only at hc
      subst hc
      simp [hne]

/-- C17 amended, over the in-memory store at `Register("alice", ...)` on
`aliceStore`, where `CreateUser` fails with `ErrUserAlreadyExists`. -/
theorem C17_translated_storage_failures_witness :
    (mem.CreateUser aliceStore ⟨"u2", "alice", "b@x.com", "$2a$pw2"⟩).1 =
      some Error.ErrUserAlreadyExists ∧
    (AuthService.Register mem testBcrypt "salt" "u2" aliceStore
      ⟨"alice", "b@x.com", "pw2"⟩).err = none ∧
    (AuthService.Register mem testBcrypt "salt" "u2" aliceStore
      ⟨"alice", "b@x.com", "pw2"⟩).resp =
      { UserId := "", Success := false, Message := "user already exists" } :=
  ⟨by decide,
    (C17_translated_storage_failures mem testBcrypt aliceStore "salt" "u2" "$2a$pw2"
      ⟨"alice", "b@x.com", "pw2"⟩ ⟨"alice", "pw1"⟩ ⟨"t1"⟩ ⟨"t1"⟩).1
      (by decide) rfl (by decide)⟩

/-- C18, as stated, fails: on `aliceStore` the username `nobody` is not stored
and `alice` is stored with a hash that does not verify `wrong`; both Logins
answer "invalid username or password", but `Login("nobody", "wrong")` makes
no call of `bcrypt.CompareHashAndPassword` while `Login("alice", "wrong")`
makes one. -/
theorem C18_counterexample :
    aliceStore.users "nobody" = none ∧
    (∃ r, aliceStore.users "alice" = some r ∧
      testBcrypt.CompareHashAndPassword r.PasswordHash "wrong" ≠ none) ∧
    (AuthService.LoginCounted mem testBcrypt "t1" aliceStore ⟨"nobody", "wrong"⟩).1 =
      AuthService.Login mem testBcrypt "t1" aliceStore ⟨"nobody", "wrong"⟩ ∧
    (AuthService.LoginCounted mem testBcrypt "t1" aliceStore ⟨"alice", "wrong"⟩).1 =
      AuthService.Login mem testBcrypt "t1" aliceStore ⟨"alice", "wrong"⟩ ∧
    (AuthService.Login mem testBcrypt "t1" aliceStore ⟨"nobody", "wrong"⟩).resp.Message =
      "invalid username or password" ∧
    (AuthService.Login mem testBcrypt "t1" aliceStore ⟨"alice", "wrong"⟩).resp.Message =
      "invalid username or password" ∧
    (AuthService.LoginCounted mem testBcrypt "t1" aliceStore ⟨"nobody", "wrong"⟩).2 = 0 ∧
    (AuthService.LoginCounted mem testBcrypt "t1" aliceStore ⟨"alice", "wrong"⟩).2 = 1 ∧
    (AuthService.LoginCounted mem testBcrypt "t1" aliceStore ⟨"nobody", "wrong"⟩).2 ≠
      (AuthService.LoginCounted mem testBcrypt "t1" aliceStore ⟨"alice", "wrong"⟩).2 := by
  refine ⟨by decide, ⟨⟨"u1", "alice", "a@x.com", "$2a$pw1"⟩, by decide, by decide⟩,
    LoginCounted_fst _ _ _ _ _, LoginCounted_fst _ _ _ _ _,
    by decide, by decide, by decide, by decide, by decide⟩

/-- C18, amended. For non-empty usernames and passwords, `Login` answers
"invalid username or password" both for a username that is not stored and for
a stored username whose hash does not verify the password, but it does not do
the same work: it makes no call of `bcrypt.CompareHashAndPassword` in the
first case and one call in the second. The count is that of `LoginCounted`,
whose outcome is that of `Login`. -/
theorem C18_unknown_username_skips_verification (b : Bcrypt) (s : InMemoryStorage)
    (uuid username pw : String) :
    (AuthService.LoginCounted mem b uuid s ⟨username, pw⟩).1 =
      AuthService.Login mem b uuid s ⟨username, pw⟩ ∧
    (username ≠ "" → pw ≠ "" → s.users username = none →
      (AuthService.LoginCounted mem b uuid s ⟨username, pw⟩).2 = 0 ∧
      (AuthService.Login mem b uuid s ⟨username, pw⟩).resp.Message =
        "invalid username or password") ∧
    (∀ r, username ≠ "" → pw ≠ "" → s.users username = some r →
      b.CompareHashAndPassword r.PasswordHash pw ≠ none →
      (AuthService.LoginCounted mem b uuid s ⟨username, pw⟩).2 = 1 ∧
      (AuthService.Login mem b uuid s ⟨username, pw⟩).resp.Message =
        "invalid username or password") ∧
    ((AuthService.LoginCounted mem testBcrypt "t1" aliceStore ⟨"nobody", "wrong"⟩).2 = 0 ∧
      (AuthService.LoginCounted mem testBcrypt "t1" aliceStore ⟨"alice", "wrong"⟩).2 = 1) := by
  refine ⟨LoginCounted_fst _ _ _ _ _, ?_, ?_, by decide⟩
  · intro hu hp hn
    constructor
    · simp [AuthService.LoginCounted, mem, InMemoryStorage.asStorage,
        InMemoryStorage.GetUserByUsername, hu, hp, hn]
    · simp [Login_mem, hu, hp, hn]
  · intro r hu hp hs hc
    cases hc2 : b.CompareHashAndPassword r.PasswordHash pw with
    | none => exact absurd hc2 hc
    | some e =>
      constructor
      · simp [AuthService.LoginCounted, mem, InMemoryStorage.asStorage,
          InMemoryStorage.GetUserByUsername, hu, hp, hs, hc2]
      · simp [Login_mem, hu, hp, hs, hc2]

/-- C20. For every store, when the username is not stored or the stored hash
does not verify the supplied password, `Login` returns the store it was
given: the token index and both user indexes are what they were, and the
response carries success=false and no token. -/
theorem C20_failed_login_keeps_store (b : Bcrypt) (s : InMemoryStorage) (uuid : String)
    (req : LoginRequest)
    (hfail : s.users req.Username = none ∨
      ∃ r, s.users req.Username = some r ∧
        b.CompareHashAndPassword r.PasswordHash req.Password ≠ none) :
    (AuthService.Login mem b uuid s req).store = s ∧
    (AuthService.Login mem b uuid s req).store.tokens = s.tokens ∧
    (AuthService.Login mem b uuid s req).store.users = s.users ∧
    (AuthService.Login mem b uuid s req).store.userIDs = s.userIDs ∧
    (AuthService.Login mem b uuid s req).resp.Success = false ∧
    (AuthService.Login mem b uuid s req).resp.Token = "" := by
  have hs : (AuthService.Login mem b uuid s req).store = s ∧
      (AuthService.Login mem b uuid s req).resp.Success = false ∧
      (AuthService.Login mem b uuid s req).resp.Token = "" := by
    rw [Login_mem]
    split
    · exact ⟨rfl, rfl, rfl⟩
    · rcases hfail with hn | ⟨r, hr, hc⟩
      · simp [hn]
      · cases hc2 : b.CompareHashAndPassword r.PasswordHash req.Password with
        | none => exact absurd hc2 hc
        | some e => simp [hr, hc2]
  refine ⟨hs.1, ?_, ?_, ?_, hs.2.1, hs.2.2⟩ <;> rw [hs.1]

/-- C20 on `aliceStore`, at `Login("alice", "wrong")` and
`Login("nobody", "pw1")`. -/
theorem C20_failed_login_keeps_store_witness :
    (aliceStore.users "alice" = some ⟨"u1", "alice", "a@x.com", "$2a$pw1"⟩ ∧
      testBcrypt.CompareHashAndPassword "$2a$pw1" "wrong" ≠ none) ∧
    (AuthService.Login mem testBcrypt "t1" aliceStore ⟨"alice", "wrong"⟩).store = aliceStore ∧
    (AuthService.Login mem testBcrypt "t1" aliceStore ⟨"nobody", "pw1"⟩).store = aliceStore :=
  ⟨by decide,
    (C20_failed_login_keeps_store testBcrypt aliceStore "t1" ⟨"alice", "wrong"⟩
      (Or.inr ⟨⟨"u1", "alice", "a@x.com", "$2a$pw1"⟩, by decide, by decide⟩)).1,
    (C20_failed_login_keeps_store testBcrypt aliceStore "t1" ⟨"nobody", "pw1"⟩
      (Or.inl (by decide))).1⟩

end service
